import Mathlib

/-!
Verification development for the TAuth authentication service.

The definitions below are a shallow embedding of the Go sources:
pure helpers become Lean functions, the refresh-token stores become
explicit state passing over lists of records, and machine integers
become `Nat`/`Int` with explicit `% 2 ^ 32` where overflow matters.
Nondeterministic inputs of the Go code (random token material, the
wall clock) appear as explicit parameters of the transition
functions.  Unix timestamps are modelled at second granularity,
matching the `int64` fields of the stored records.
-/

namespace TAuth

set_option maxRecDepth 1000000

/-! ## Bytes and 32-bit words

`crypto/sha256` and `encoding/base64` (`RawURLEncoding`) are the two
standard-library primitives the refresh stores use through
`hashOpaque`; they are implemented here bit-for-bit over `Nat`. -/

/-- Truncate a natural number to a 32-bit word. -/
def w32 (n : Nat) : Nat := n % 4294967296

/-- Rotate a 32-bit word right by `n` positions. -/
def rotr32 (n x : Nat) : Nat := w32 ((x >>> n) ||| (x <<< (32 - n)))

/-- Bitwise complement within 32 bits. -/
def not32 (x : Nat) : Nat := x ^^^ 4294967295

/-- Big-endian 8-byte encoding of a natural number (SHA-256 length field). -/
def be64 (n : Nat) : List Nat :=
  [ (n >>> 56) % 256, (n >>> 48) % 256, (n >>> 40) % 256, (n >>> 32) % 256,
    (n >>> 24) % 256, (n >>> 16) % 256, (n >>> 8) % 256, n % 256 ]

/-- Big-endian 4-byte encoding of a 32-bit word. -/
def be32 (n : Nat) : List Nat :=
  [ (n >>> 24) % 256, (n >>> 16) % 256, (n >>> 8) % 256, n % 256 ]

/-- The 64 round constants of SHA-256 (FIPS 180-4), in decimal. -/
def sha256K : List Nat :=
  [ 1116352408, 1899447441, 3049323471, 3921009573, 961987163, 1508970993,
    2453635748, 2870763221, 3624381080, 310598401, 607225278, 1426881987,
    1925078388, 2162078206, 2614888103, 3248222580, 3835390401, 4022224774,
    264347078, 604807628, 770255983, 1249150122, 1555081692, 1996064986,
    2554220882, 2821834349, 2952996808, 3210313671, 3336571891, 3584528711,
    113926993, 338241895, 666307205, 773529912, 1294757372, 1396182291,
    1695183700, 1986661051, 2177026350, 2456956037, 2730485921, 2820302411,
    3259730800, 3345764771, 3516065817, 3600352804, 4094571909, 275423344,
    430227734, 506948616, 659060556, 883997877, 958139571, 1322822218,
    1537002063, 1747873779, 1955562222, 2024104815, 2227730452, 2361852424,
    2428436474, 2756734187, 3204031479, 3329325298 ]

/-- The eight initial hash words of SHA-256, in decimal. -/
def sha256H0 : List Nat :=
  [ 1779033703, 3144134277, 1013904242, 2773480762,
    1359893119, 2600822924, 528734635, 1541459225 ]

/-- SHA-256 message padding: append 0x80, zero bytes, and the bit length. -/
def sha256Pad (msg : List Nat) : List Nat :=
  let len := msg.length
  let padZeros := (119 - len % 64) % 64
  msg ++ [128] ++ List.replicate padZeros 0 ++ be64 (len * 8)

/-- Group bytes into big-endian 32-bit words. -/
def bytesToWords : List Nat → List Nat
  | a :: b :: c :: d :: rest => (((a * 256 + b) * 256 + c) * 256 + d) :: bytesToWords rest
  | _ => []

/-- Split a word list into 16-word chunks; the fuel argument bounds recursion. -/
def chunkWords : Nat → List Nat → List (List Nat)
  | 0, _ => []
  | Nat.succ fuel, ws =>
    if ws.length < 16 then [] else ws.take 16 :: chunkWords fuel (ws.drop 16)

/-- SHA-256 small sigma 0. -/
def ssig0 (x : Nat) : Nat := w32 (rotr32 7 x ^^^ rotr32 18 x ^^^ (x >>> 3))

/-- SHA-256 small sigma 1. -/
def ssig1 (x : Nat) : Nat := w32 (rotr32 17 x ^^^ rotr32 19 x ^^^ (x >>> 10))

/-- Extend a 16-word chunk to the 64-word message schedule. -/
def sha256Schedule (chunk : List Nat) : List Nat :=
  (List.range 48).foldl
    (fun acc _ =>
      let n := acc.length
      let g := fun (k : Nat) => acc.getD (n - k) 0
      acc ++ [w32 (ssig1 (g 2) + g 7 + ssig0 (g 15) + g 16)])
    chunk

/-- One SHA-256 compression round over the 8-word working state. -/
def sha256Round (ws : List Nat) (st : List Nat) (i : Nat) : List Nat :=
  match st with
  | [a, b, c, d, e, f, g, h] =>
    let s1 := w32 (rotr32 6 e ^^^ rotr32 11 e ^^^ rotr32 25 e)
    let ch := w32 ((e &&& f) ^^^ (not32 e &&& g))
    let temp1 := w32 (h + s1 + ch + sha256K.getD i 0 + ws.getD i 0)
    let s0 := w32 (rotr32 2 a ^^^ rotr32 13 a ^^^ rotr32 22 a)
    let maj := w32 ((a &&& b) ^^^ (a &&& c) ^^^ (b &&& c))
    let temp2 := w32 (s0 + maj)
    [w32 (temp1 + temp2), a, b, c, w32 (d + temp1), e, f, g]
  | _ => st

/-- SHA-256 compression of one 16-word chunk into the running hash state. -/
def sha256Compress (hs : List Nat) (chunk : List Nat) : List Nat :=
  let ws := sha256Schedule chunk
  let fin := (List.range 64).foldl (sha256Round ws) hs
  match hs, fin with
  | [h0, h1, h2, h3, h4, h5, h6, h7], [a, b, c, d, e, f, g, h] =>
    [w32 (h0 + a), w32 (h1 + b), w32 (h2 + c), w32 (h3 + d),
     w32 (h4 + e), w32 (h5 + f), w32 (h6 + g), w32 (h7 + h)]
  | _, _ => hs

/-- SHA-256 digest of a byte list. -/
def sha256 (msg : List Nat) : List Nat :=
  let ws := bytesToWords (sha256Pad msg)
  let hs := (chunkWords ws.length ws).foldl sha256Compress sha256H0
  (hs.map be32).flatten

/-- The URL-safe base64 alphabet used by `base64.RawURLEncoding`. -/
def base64URLAlphabet : List Char :=
  "ABCDEFGHIJKLMNOPQRSTUVWXYZabcdefghijklmnopqrstuvwxyz0123456789-_".data

/-- Look up a 6-bit value in the URL-safe base64 alphabet. -/
def b64c (n : Nat) : Char := base64URLAlphabet.getD n 'A'

/-- Unpadded URL-safe base64 encoding (`base64.RawURLEncoding.EncodeToString`). -/
def b64encode : List Nat → List Char
  | b0 :: b1 :: b2 :: rest =>
    b64c (b0 >>> 2) :: b64c (((b0 &&& 3) <<< 4) ||| (b1 >>> 4)) ::
    b64c (((b1 &&& 15) <<< 2) ||| (b2 >>> 6)) :: b64c (b2 &&& 63) :: b64encode rest
  | [b0, b1] =>
    [b64c (b0 >>> 2), b64c (((b0 &&& 3) <<< 4) ||| (b1 >>> 4)), b64c ((b1 &&& 15) <<< 2)]
  | [b0] => [b64c (b0 >>> 2), b64c ((b0 &&& 3) <<< 4)]
  | [] => []

/-- UTF-8 encoding of one character, as byte values. -/
def utf8EncodeCharBytes (c : Char) : List Nat :=
  let n := c.toNat
  if n < 128 then [n]
  else if n < 2048 then [192 ||| (n >>> 6), 128 ||| (n &&& 63)]
  else if n < 65536 then
    [224 ||| (n >>> 12), 128 ||| ((n >>> 6) &&& 63), 128 ||| (n &&& 63)]
  else
    [240 ||| (n >>> 18), 128 ||| ((n >>> 12) &&& 63), 128 ||| ((n >>> 6) &&& 63), 128 ||| (n &&& 63)]

/-- UTF-8 bytes of a string (Go strings are UTF-8 byte sequences). -/
def utf8Bytes (s : String) : List Nat := ((s.data.map utf8EncodeCharBytes)).flatten

/-- `hashOpaque` from `refresh_token_helpers.go`: SHA-256 of the token text,
encoded with the unpadded URL-safe base64 alphabet. -/
def hashOpaque (tokenText : String) : String :=
  String.mk (b64encode (sha256 (utf8Bytes tokenText)))

/-- Whitespace predicate of Go `strings.TrimSpace` (`unicode.IsSpace`),
restricted to the Latin-1 space characters Go recognises. -/
def goIsSpace (c : Char) : Bool :=
  c == ' ' || c == '\t' || c == '\n' || c == '\r' ||
  c.toNat == 11 || c.toNat == 12 || c.toNat == 133 || c.toNat == 160

/-- Go `strings.TrimSpace`. -/
def strTrim (s : String) : String :=
  String.mk (((s.data.dropWhile goIsSpace).reverse.dropWhile goIsSpace).reverse)

/-! ## Refresh-token store error taxonomy

`refresh_store_errors.go` defines shared sentinel errors; the Go stores
wrap them with an operation prefix via `fmt.Errorf("...: %w", err)`, and
callers match with `errors.Is`.  The model keeps the sentinel category,
which is exactly what `errors.Is` observes; engine-level failures are the
`storage` constructor. -/

/-- Sentinel error taxonomy of the refresh-token stores. -/
inductive RefreshStoreError
  | notFound
  | revoked
  | expired
  | alreadyRevoked
  | emptyOpaque
  | storage (msg : String)
deriving Repr, DecidableEq

/-- A row of the `refresh_tokens` table / a record of the memory store. -/
structure RefreshTokenRecord where
  tokenID : String
  userID : String
  tokenHash : String
  expiresUnix : Int
  revokedAtUnix : Int
  previousTokenID : String
  issuedAtUnix : Int
deriving Repr, DecidableEq

/-! ## DatabaseRefreshTokenStore (database_refresh_store.go)

State is the `refresh_tokens` table as a list of rows.  `token_id` is the
primary key and `token_hash` carries a unique index, so `Create` fails on
a duplicate of either; `Take` returns the first matching row.  The
random opaque secret and the time-derived token id that Go generates
inside `Issue` are parameters of the transition. -/

/-- The record both stores build inside `Issue`: all fields from
non-secret inputs except the hash, which is `hashOpaque` of the secret. -/
def issuedRecord (tokenID applicationUserID tokenOpq : String)
    (expiresUnix : Int) (previousTokenID : String) (nowSec : Int) :
    RefreshTokenRecord :=
  { tokenID := tokenID, userID := applicationUserID, tokenHash := hashOpaque tokenOpq,
    expiresUnix := expiresUnix, revokedAtUnix := 0,
    previousTokenID := previousTokenID, issuedAtUnix := nowSec }

/-- `DatabaseRefreshTokenStore.Issue`: insert a fresh record storing only
the hash of the opaque secret, then return `(tokenID, opaqueSecret)`. -/
def dbIssue (σ : List RefreshTokenRecord) (applicationUserID : String)
    (expiresUnix : Int) (previousTokenID : String) (nowSec : Int)
    (tokenID tokenOpq : String) :
    List RefreshTokenRecord × Except RefreshStoreError (String × String) :=
  let hashValue := hashOpaque tokenOpq
  let record : RefreshTokenRecord :=
    issuedRecord tokenID applicationUserID tokenOpq expiresUnix previousTokenID nowSec
  if σ.any (fun r => r.tokenID == tokenID || r.tokenHash == hashValue) then
    (σ, .error (.storage "unique_violation"))
  else
    (σ ++ [record], .ok (tokenID, tokenOpq))

/-- `DatabaseRefreshTokenStore.Validate`: blank input, then hash lookup,
then the revoked and expired checks, in source order. -/
def dbValidate (σ : List RefreshTokenRecord) (tokenOpq : String) (nowSec : Int) :
    Except RefreshStoreError (String × String × Int) :=
  if strTrim tokenOpq == "" then .error .emptyOpaque
  else
    match σ.find? (fun r => r.tokenHash == hashOpaque tokenOpq) with
    | none => .error .notFound
    | some r =>
      if r.revokedAtUnix ≠ 0 then .error .revoked
      else if r.expiresUnix < nowSec then .error .expired
      else .ok (r.userID, r.tokenID, r.expiresUnix)

/-- `DatabaseRefreshTokenStore.Revoke`: conditional update
`WHERE token_id = ? AND revoked_at_unix = 0`; when no row is affected, a
follow-up read distinguishes `notFound` from `alreadyRevoked`. -/
def dbRevoke (σ : List RefreshTokenRecord) (tokenID : String) (nowSec : Int) :
    List RefreshTokenRecord × Option RefreshStoreError :=
  let updated := σ.map (fun r =>
    if r.tokenID == tokenID && r.revokedAtUnix == 0 then
      { r with revokedAtUnix := nowSec }
    else r)
  let rowsAffected := (σ.filter (fun r => r.tokenID == tokenID && r.revokedAtUnix == 0)).length
  if rowsAffected == 0 then
    match σ.find? (fun r => r.tokenID == tokenID) with
    | none => (σ, some .notFound)
    | some r => if r.revokedAtUnix ≠ 0 then (σ, some .alreadyRevoked) else (σ, none)
  else
    (updated, none)

/-! ## Association-list helpers for the Go maps of the in-memory stores -/

/-- Go map read: first binding of the key. -/
def lookupA {α : Type} (entries : List (String × α)) (key : String) : Option α :=
  (entries.find? (fun p => p.1 == key)).map (fun p => p.2)

/-- Go map write: replace the binding if present, otherwise append it. -/
def insertA {α : Type} (entries : List (String × α)) (key : String) (value : α) :
    List (String × α) :=
  if entries.any (fun p => p.1 == key) then
    entries.map (fun p => if p.1 == key then (key, value) else p)
  else
    entries ++ [(key, value)]

/-- Go map delete. -/
def eraseA {α : Type} (entries : List (String × α)) (key : String) :
    List (String × α) :=
  entries.filter (fun p => p.1 != key)

/-! ## MemoryRefreshTokenStore

Modelled from the spec: the repository tree holds only a pre-TA-203
revision of `memory_refresh_store.go` (ad-hoc string errors, second
revoke returning nil) together with tests that demand the shared
sentinel taxonomy; the current implementation file is absent.  The
behaviour below follows the spec's store contract, which both backends
implement identically, over the `byID`/`byHash` map structure of the
in-tree revision. -/

/-- In-memory refresh store state: records by token id, and an index
from token hash to token id. -/
structure MemoryRefreshStore where
  byID : List (String × RefreshTokenRecord)
  byHash : List (String × String)
deriving Repr, DecidableEq

/-- The empty in-memory refresh store (`NewMemoryRefreshTokenStore`). -/
def memEmpty : MemoryRefreshStore := { byID := [], byHash := [] }

/-- Modelled from the spec: `MemoryRefreshTokenStore.Issue` persists a
record holding `hashOpaque` of the secret, never the secret itself. -/
def memIssue (st : MemoryRefreshStore) (applicationUserID : String)
    (expiresUnix : Int) (previousTokenID : String) (nowSec : Int)
    (tokenID tokenOpq : String) :
    MemoryRefreshStore × Except RefreshStoreError (String × String) :=
  let hashValue := hashOpaque tokenOpq
  let record : RefreshTokenRecord :=
    issuedRecord tokenID applicationUserID tokenOpq expiresUnix previousTokenID nowSec
  ({ byID := insertA st.byID tokenID record,
     byHash := insertA st.byHash hashValue tokenID },
   .ok (tokenID, tokenOpq))

/-- Modelled from the spec: `MemoryRefreshTokenStore.Validate` with the
shared sentinel taxonomy — blank input, hash miss, revoked, expired. -/
def memValidate (st : MemoryRefreshStore) (tokenOpq : String) (nowSec : Int) :
    Except RefreshStoreError (String × String × Int) :=
  if strTrim tokenOpq == "" then .error .emptyOpaque
  else
    match lookupA st.byHash (hashOpaque tokenOpq) with
    | none => .error .notFound
    | some tokenID =>
      match lookupA st.byID tokenID with
      | none => .error .notFound
      | some r =>
        if r.revokedAtUnix ≠ 0 then .error .revoked
        else if r.expiresUnix < nowSec then .error .expired
        else .ok (r.userID, r.tokenID, r.expiresUnix)

/-- Modelled from the spec: `MemoryRefreshTokenStore.Revoke` — missing
record, already-revoked record, or a single `RevokedAtUnix` update. -/
def memRevoke (st : MemoryRefreshStore) (tokenID : String) (nowSec : Int) :
    MemoryRefreshStore × Option RefreshStoreError :=
  match lookupA st.byID tokenID with
  | none => (st, some .notFound)
  | some r =>
    if r.revokedAtUnix ≠ 0 then (st, some .alreadyRevoked)
    else
      ({ byID := insertA st.byID tokenID { r with revokedAtUnix := nowSec },
         byHash := st.byHash },
       none)

/-! ## Nonce store (nonce_store.go) -/

/-- Error taxonomy of the nonce store. -/
inductive NonceError
  | nonceNotFound
  | nonceExpired
deriving Repr, DecidableEq

/-- `purgeExpiredLocked`: drop every entry whose expiry is strictly in
the past (`now.After(expiry)`). -/
def purgeExpired (entries : List (String × Int)) (nowSec : Int) :
    List (String × Int) :=
  entries.filter (fun p => !decide (p.2 < nowSec))

/-- `memoryNonceStore.Issue`: purge, then record `expiry = now + ttl`
for the freshly generated token (a parameter here). -/
def nonceIssue (entries : List (String × Int)) (token : String)
    (nowSec ttlSec : Int) : List (String × Int) :=
  insertA (purgeExpired entries nowSec) token (nowSec + ttlSec)

/-- `memoryNonceStore.Consume`: absent token fails with `nonceNotFound`;
a present token is deleted unconditionally and then checked for expiry. -/
def nonceConsume (entries : List (String × Int)) (token : String)
    (nowSec : Int) : List (String × Int) × Option NonceError :=
  match lookupA entries token with
  | none => (purgeExpired entries nowSec, some .nonceNotFound)
  | some expiry =>
    let entries1 := eraseA entries token
    if expiry < nowSec then (purgeExpired entries1 nowSec, some .nonceExpired)
    else (purgeExpired entries1 nowSec, none)

/-! ## Session tokens (jwthelper.go) and the session validator
(pkg/sessionvalidator/validator.go)

Signed tokens are modelled symbolically: a token records its claims, the
algorithm of its header, and the key its MAC was computed with; a
signature verifies exactly when the verifier holds the same key and the
algorithm is the single accepted one.  Timestamps are unix seconds, the
serialisation precision of `jwt.NumericDate`. -/

/-- The claims payload of a session token (`JwtCustomClaims` /
`sessionvalidator.Claims` plus the registered claims used). -/
structure SessionClaims where
  userID : String
  userEmail : String
  userDisplayName : String
  userAvatarURL : String
  userRoles : List String
  issuer : String
  subject : String
  issuedAt : Option Int
  notBefore : Option Int
  expiresAt : Option Int
deriving Repr, DecidableEq

/-- Signing algorithm recorded in a token header. -/
inductive JwtAlg
  | hs256
  | otherAlg (name : String)
deriving Repr, DecidableEq

/-- A serialised signed token: claims, header algorithm, and the key the
signature was produced with. -/
structure SignedToken where
  claims : SessionClaims
  alg : JwtAlg
  macKey : List Nat
deriving Repr, DecidableEq

/-- `MintAppJWT`: reject a blank subject, otherwise sign HS256 claims
with `IssuedAt = now`, `NotBefore = now - 30s`, `ExpiresAt = now + ttl`,
returning the token together with the expiry.  The avatar parameter
follows the current call sites; HMAC signing itself cannot fail for a
byte-slice key. -/
def mintAppJWT (nowSec : Int) (applicationUserID userEmail userDisplayName userAvatarURL : String)
    (userRoles : List String) (issuer : String) (signingKey : List Nat) (ttlSec : Int) :
    Except String (SignedToken × Int) :=
  if strTrim applicationUserID == "" then
    .error "jwt.mint.failure: subject must be non-empty"
  else
    let expiresAt := nowSec + ttlSec
    .ok ({ claims :=
             { userID := applicationUserID, userEmail := userEmail,
               userDisplayName := userDisplayName, userAvatarURL := userAvatarURL,
               userRoles := userRoles, issuer := issuer,
               subject := applicationUserID, issuedAt := some nowSec,
               notBefore := some (nowSec - 30), expiresAt := some expiresAt },
           alg := .hs256, macKey := signingKey },
         expiresAt)

/-- Sentinel errors of `pkg/sessionvalidator`. -/
inductive SVError
  | missingSigningKey
  | missingIssuer
  | missingToken
  | missingCookie
  | invalidToken
  | invalidIssuer
  | tokenExpired
deriving Repr, DecidableEq

/-- Input to `Validator.ValidateToken`: a string that trims to empty, a
string that does not parse as a JWT, or a parsed signed token. -/
inductive TokenInput
  | blank
  | malformed
  | tok (t : SignedToken)
deriving Repr, DecidableEq

/-- True when the expiry claim is present and not after `now`
(jwt/v5 parse-time check: the token is valid while `now.Before(exp)`). -/
def jwtExpired (expiresAt : Option Int) (nowSec : Int) : Bool :=
  match expiresAt with
  | some e => decide (e ≤ nowSec)
  | none => false

/-- True when the not-before claim is present and still in the future. -/
def jwtNotYetValid (notBefore : Option Int) (nowSec : Int) : Bool :=
  match notBefore with
  | some nb => decide (nowSec < nb)
  | none => false

/-- `Validator.ValidateToken`: parse with HS256 as the only accepted
method under the validator clock, then check issuer, then re-check
expiry (`now.After(exp)`), not-before, and issued-at explicitly. -/
def validateToken (signingKey : List Nat) (issuer : String) (nowSec : Int)
    (input : TokenInput) : Except SVError SessionClaims :=
  match input with
  | .blank => .error .missingToken
  | .malformed => .error .invalidToken
  | .tok t =>
    if t.alg ≠ JwtAlg.hs256 then .error .invalidToken
    else if t.macKey ≠ signingKey then .error .invalidToken
    else if jwtExpired t.claims.expiresAt nowSec then .error .tokenExpired
    else if jwtNotYetValid t.claims.notBefore nowSec then .error .invalidToken
    else if t.claims.issuer ≠ issuer then .error .invalidIssuer
    else if (match t.claims.expiresAt with
             | some e => decide (e < nowSec)
             | none => false : Bool) then .error .tokenExpired
    else if jwtNotYetValid t.claims.notBefore nowSec then .error .invalidToken
    else if (match t.claims.issuedAt with
             | some ia => decide (nowSec < ia)
             | none => false : Bool) then .error .invalidToken
    else .ok t.claims

/-! ## Request-origin heuristics (routes.go `isHTTPS`) -/

/-- ASCII lower-casing of one character. -/
def asciiLowerChar (c : Char) : Char :=
  if 'A' ≤ c ∧ c ≤ 'Z' then Char.ofNat (c.toNat + 32) else c

/-- ASCII lower-casing of a string (`strings.ToLower` on header text). -/
def lowerStr (s : String) : String := String.mk (s.data.map asciiLowerChar)

/-- `strings.EqualFold` on header text (ASCII folding). -/
def equalFold (a b : String) : Bool := lowerStr a == lowerStr b

/-- Substring occurrence over character lists. -/
def containsSubList (needle : List Char) : List Char → Bool
  | [] => needle.isEmpty
  | c :: t => needle.isPrefixOf (c :: t) || containsSubList needle t

/-- `strings.Contains`. -/
def strContainsSub (s sub : String) : Bool := containsSubList sub.data s.data

/-- Index of the last occurrence of a character. -/
def lastIndexOf (cs : List Char) (c : Char) : Option Nat :=
  match cs.reverse.findIdx? (fun x => x == c) with
  | none => none
  | some i => some (cs.length - 1 - i)

/-- `net.SplitHostPort`: split at the last colon, allowing a bracketed
host; `none` covers every error case (missing port, too many colons,
stray brackets). -/
def splitHostPort (hostport : String) : Option (String × String) :=
  let cs := hostport.data
  match lastIndexOf cs ':' with
  | none => none
  | some i =>
    if cs.head? == some '[' then
      match cs.findIdx? (fun x => x == ']') with
      | none => none
      | some endIdx =>
        if endIdx + 1 == cs.length then none
        else if endIdx + 1 ≠ i then none
        else
          let host := (cs.drop 1).take (endIdx - 1)
          if containsSubList "[".data (cs.drop 1) then none
          else if containsSubList "]".data (cs.drop (endIdx + 1)) then none
          else some (String.mk host, String.mk (cs.drop (i + 1)))
    else
      let host := cs.take i
      if host.contains ':' then none
      else if containsSubList "[".data cs then none
      else if containsSubList "]".data cs then none
      else some (String.mk host, String.mk (cs.drop (i + 1)))

/-- The request data `isHTTPS` inspects; absent headers are `""`. -/
structure HttpRequestInfo where
  tlsPresent : Bool
  xForwardedProto : String
  forwarded : String
  host : String
deriving Repr, DecidableEq

/-- `isHTTPS` from routes.go: TLS on the connection, an
`X-Forwarded-Proto: https` header, a `Forwarded` header mentioning
`proto=https`, or a `localhost` host that splits into host and port. -/
def isHTTPS (request : HttpRequestInfo) : Bool :=
  if request.tlsPresent then true
  else if equalFold request.xForwardedProto "https" then true
  else if request.forwarded != "" && strContainsSub (lowerStr request.forwarded) "proto=https" then true
  else
    match splitHostPort request.host with
    | some (host, _) => host == "localhost"
    | none => false

/-! ## Auth route handlers (routes.go `MountAuthRoutes`)

The handlers are modelled as pure functions.  Like the Go code, which
receives a `RefreshTokenStore` interface value, they are generic over
the refresh store, given as a record of state-passing operations; the
external identity verifier and the user store are likewise passed as
result-valued inputs.  Cookies are recorded as `(name, path)` pairs. -/

/-- The `RefreshTokenStore` interface as state-passing operations. -/
structure RefreshStoreOps (σ : Type) where
  validate : σ → String → σ × Except RefreshStoreError (String × String × Int)
  issue : σ → String → Int → String → σ × Except RefreshStoreError (String × String)
  revoke : σ → String → σ × Option RefreshStoreError

/-- The fields of `ServerConfig` the handlers read. -/
structure ServerConfigM where
  googleWebClientID : String
  appJWTSigningKey : List Nat
  appJWTIssuer : String
  cookieDomain : String
  sessionCookieName : String
  refreshCookieName : String
  sessionTTLSec : Int
  refreshTTLSec : Int
  allowInsecureHTTP : Bool

/-- Claims of an externally verified Google ID token, as read through
Go type assertions: a missing or wrongly-typed claim yields `none`. -/
structure GooglePayload where
  iss : Option String
  sub : Option String
  email : Option String
  emailVerified : Option Bool
  name : Option String
  picture : Option String
  nonce : Option String

/-- Inbound data of a `/auth/google` request. -/
structure LoginRequest where
  bindOk : Bool
  googleIDToken : String
  nonceToken : String
  httpInfo : HttpRequestInfo

/-- Observable outcome of a `/auth/google` request. -/
structure LoginResponse (σ : Type) where
  status : Nat
  errorCode : Option String
  cookies : List (String × String)
  nonceEntries : List (String × Int)
  refreshState : σ

/-- The `/auth/google` handler: JSON binding, nonce consumption,
HTTPS enforcement, external verification, issuer allow-list, nonce-claim
matching (raw or hashed), verified-identity requirement, profile upsert,
session minting, and refresh issuance, in source order. -/
def authGoogle {σ : Type} (ops : RefreshStoreOps σ) (cfg : ServerConfigM)
    (req : LoginRequest) (validatorInitOk : Bool)
    (payloadResult : Except String GooglePayload)
    (upsert : String → String → String → String → Except String (String × List String))
    (entries : List (String × Int)) (σ0 : σ) (nowSec : Int) : LoginResponse σ :=
  if !req.bindOk || strTrim req.googleIDToken == "" then
    ⟨400, some "invalid_json", [], entries, σ0⟩
  else if strTrim req.nonceToken == "" then
    ⟨400, some "missing_nonce", [], entries, σ0⟩
  else
    let consumed := nonceConsume entries req.nonceToken nowSec
    match consumed.2 with
    | some _ => ⟨401, some "invalid_nonce", [], consumed.1, σ0⟩
    | none =>
      let entries1 := consumed.1
      if !cfg.allowInsecureHTTP && !isHTTPS req.httpInfo then
        ⟨400, some "https_required", [], entries1, σ0⟩
      else if !validatorInitOk then
        ⟨500, none, [], entries1, σ0⟩
      else
        match payloadResult with
        | .error _ => ⟨401, some "invalid_google_token", [], entries1, σ0⟩
        | .ok payload =>
          let issuerOk := match payload.iss with
            | some v => v == "https://accounts.google.com" || v == "accounts.google.com"
            | none => false
          if !issuerOk then ⟨401, some "invalid_issuer", [], entries1, σ0⟩
          else
            let googleSub := payload.sub.getD ""
            let userEmail := payload.email.getD ""
            let emailVerified := payload.emailVerified.getD false
            let userDisplayName := payload.name.getD ""
            let userAvatarURL := payload.picture.getD ""
            let nonceClaim := payload.nonce.getD ""
            if nonceClaim == "" then ⟨401, some "invalid_nonce", [], entries1, σ0⟩
            else if nonceClaim != req.nonceToken && nonceClaim != hashOpaque req.nonceToken then
              ⟨401, some "invalid_nonce", [], entries1, σ0⟩
            else if googleSub == "" || userEmail == "" || !emailVerified then
              ⟨401, some "unverified_identity", [], entries1, σ0⟩
            else
              match upsert googleSub userEmail userDisplayName userAvatarURL with
              | .error _ => ⟨500, none, [], entries1, σ0⟩
              | .ok (applicationUserID, userRoles) =>
                if applicationUserID == "" then ⟨500, none, [], entries1, σ0⟩
                else
                  match mintAppJWT nowSec applicationUserID userEmail userDisplayName
                      userAvatarURL userRoles cfg.appJWTIssuer cfg.appJWTSigningKey
                      cfg.sessionTTLSec with
                  | .error _ => ⟨500, none, [], entries1, σ0⟩
                  | .ok _ =>
                    let issued := ops.issue σ0 applicationUserID (nowSec + cfg.refreshTTLSec) ""
                    match issued.2 with
                    | .error _ => ⟨500, none, [], entries1, issued.1⟩
                    | .ok (_, refreshOpq) =>
                      if strTrim refreshOpq == "" then ⟨500, none, [], entries1, issued.1⟩
                      else
                        ⟨200, none,
                         [(cfg.sessionCookieName, "/"), (cfg.refreshCookieName, "/auth")],
                         entries1, issued.1⟩

/-- Observable outcome of a `/auth/refresh` request. -/
structure RefreshResponse (σ : Type) where
  status : Nat
  cookies : List (String × String)
  refreshState : σ
deriving Repr

/-- The `/auth/refresh` handler: cookie check, store validation, expiry
check against the injected clock, profile load, session minting, new
refresh issuance, then revocation of the old token — any revocation
error other than `alreadyRevoked` aborts with 500 before cookies are
written. -/
def authRefresh {σ : Type} (ops : RefreshStoreOps σ) (cfg : ServerConfigM)
    (refreshCookie : Option String)
    (profile : String → Except String (String × String × String × List String))
    (σ0 : σ) (nowSec : Int) : RefreshResponse σ :=
  match refreshCookie with
  | none => ⟨401, [], σ0⟩
  | some cookieValue =>
    if strTrim cookieValue == "" then ⟨401, [], σ0⟩
    else
      let validated := ops.validate σ0 cookieValue
      match validated.2 with
      | .error _ => ⟨401, [], validated.1⟩
      | .ok (applicationUserID, currentTokenID, expiresUnix) =>
        if expiresUnix < nowSec then ⟨401, [], validated.1⟩
        else
          match profile applicationUserID with
          | .error _ => ⟨401, [], validated.1⟩
          | .ok (userEmail, userDisplayName, userAvatarURL, userRoles) =>
            match mintAppJWT nowSec applicationUserID userEmail userDisplayName
                userAvatarURL userRoles cfg.appJWTIssuer cfg.appJWTSigningKey
                cfg.sessionTTLSec with
            | .error _ => ⟨500, [], validated.1⟩
            | .ok _ =>
              let issued := ops.issue validated.1 applicationUserID
                (nowSec + cfg.refreshTTLSec) currentTokenID
              match issued.2 with
              | .error _ => ⟨500, [], issued.1⟩
              | .ok (_, newOpq) =>
                if strTrim newOpq == "" then ⟨500, [], issued.1⟩
                else
                  let revoked := ops.revoke issued.1 currentTokenID
                  match revoked.2 with
                  | some e =>
                    if e = RefreshStoreError.alreadyRevoked then
                      ⟨204, [(cfg.sessionCookieName, "/"), (cfg.refreshCookieName, "/auth")],
                       revoked.1⟩
                    else ⟨500, [], revoked.1⟩
                  | none =>
                    ⟨204, [(cfg.sessionCookieName, "/"), (cfg.refreshCookieName, "/auth")],
                     revoked.1⟩

/-! ## C8 — MintAppJWT subject gate and claim timestamps -/

/-- C8: `MintAppJWT` fails exactly when the supplied subject is blank
after trimming; for every non-blank subject it succeeds, and the minted
claims satisfy `IssuedAt = clock.Now()`, `NotBefore = IssuedAt - 30s`,
`ExpiresAt = IssuedAt + ttl`, with the returned expiry equal to the
`ExpiresAt` claim. -/
theorem mintAppJWT_subject_gate_and_timestamps
    (nowSec : Int) (uid userEmail userDisplayName userAvatarURL : String)
    (userRoles : List String) (issuer : String) (signingKey : List Nat) (ttlSec : Int) :
    ((mintAppJWT nowSec uid userEmail userDisplayName userAvatarURL userRoles issuer
        signingKey ttlSec).isOk = true ↔ ¬ strTrim uid = "")
    ∧ (∀ (t : SignedToken) (expiresAt : Int),
        mintAppJWT nowSec uid userEmail userDisplayName userAvatarURL userRoles issuer
          signingKey ttlSec = .ok (t, expiresAt) →
        t.claims.issuedAt = some nowSec ∧
        t.claims.notBefore = some (nowSec - 30) ∧
        t.claims.expiresAt = some (nowSec + ttlSec) ∧
        expiresAt = nowSec + ttlSec) := by
  constructor
  · unfold mintAppJWT
    by_cases h : strTrim uid = "" <;>
      simp [h, Except.isOk, Except.toBool]
  · intro t expiresAt hmint
    unfold mintAppJWT at hmint
    by_cases h : strTrim uid = "" <;> simp [h] at hmint
    obtain ⟨ht, hexp⟩ := hmint
    subst ht
    subst hexp
    simp

/-- Concrete instantiation of the C8 theorem: subject "user-7", clock
1000, TTL 900 seconds. -/
theorem mintAppJWT_subject_gate_and_timestamps_witness :
    ((mintAppJWT 1000 "user-7" "u@x" "U" "" ["user"] "tauth" [7] 900).isOk = true
       ↔ ¬ strTrim "user-7" = "")
    ∧ (∀ (t : SignedToken) (expiresAt : Int),
        mintAppJWT 1000 "user-7" "u@x" "U" "" ["user"] "tauth" [7] 900 = .ok (t, expiresAt) →
        t.claims.issuedAt = some 1000 ∧
        t.claims.notBefore = some (1000 - 30) ∧
        t.claims.expiresAt = some (1000 + 900) ∧
        expiresAt = 1000 + 900) :=
  mintAppJWT_subject_gate_and_timestamps 1000 "user-7" "u@x" "U" "" ["user"] "tauth" [7] 900

/-! ## C6 — session validator issuer pinning and time checks -/

/-- C6: a token minted under issuer A and verified under issuer B with
the same key fails with `invalidIssuer` even though its signature is
correct (whenever its time claims pass at the validator clock); the
validator also rejects any token whose expiry lies in the past, and any
token whose not-before or issued-at claim lies in the future. -/
theorem validator_issuer_pinning_and_time_checks :
    (∀ (nowM nowV ttlSec : Int) (uid userEmail userDisplayName userAvatarURL : String)
       (userRoles : List String) (signingKey : List Nat) (issuerA issuerB : String)
       (t : SignedToken) (expiresAt : Int),
       mintAppJWT nowM uid userEmail userDisplayName userAvatarURL userRoles issuerA
         signingKey ttlSec = .ok (t, expiresAt) →
       issuerA ≠ issuerB →
       nowV < nowM + ttlSec →
       nowM - 30 ≤ nowV →
       validateToken signingKey issuerB nowV (.tok t) = .error .invalidIssuer)
    ∧ (∀ (signingKey : List Nat) (issuer : String) (nowV : Int) (t : SignedToken) (e : Int),
        t.claims.expiresAt = some e → e < nowV →
        (validateToken signingKey issuer nowV (.tok t)).isOk = false)
    ∧ (∀ (signingKey : List Nat) (issuer : String) (nowV : Int) (t : SignedToken) (nb : Int),
        t.claims.notBefore = some nb → nowV < nb →
        (validateToken signingKey issuer nowV (.tok t)).isOk = false)
    ∧ (∀ (signingKey : List Nat) (issuer : String) (nowV : Int) (t : SignedToken) (ia : Int),
        t.claims.issuedAt = some ia → nowV < ia →
        (validateToken signingKey issuer nowV (.tok t)).isOk = false) := by
  refine ⟨?_, ?_, ?_, ?_⟩
  · intro nowM nowV ttlSec uid userEmail userDisplayName userAvatarURL userRoles
      signingKey issuerA issuerB t expiresAt hmint hne hexp hnbf
    unfold mintAppJWT at hmint
    by_cases h : strTrim uid = "" <;> simp [h] at hmint
    obtain ⟨ht, hexp'⟩ := hmint
    subst ht
    have h1 : ¬ (nowM + ttlSec ≤ nowV) := by omega
    have h2 : ¬ (nowV < nowM - 30) := by omega
    simp [validateToken, jwtExpired, jwtNotYetValid, h1, h2, hne]
  · intro signingKey issuer nowV t e he hlt
    cases hres : validateToken signingKey issuer nowV (.tok t) with
    | error err => rfl
    | ok c =>
      exfalso
      have hx : jwtExpired t.claims.expiresAt nowV = true := by
        simp [jwtExpired, he]; omega
      simp only [validateToken] at hres
      split_ifs at hres
  · intro signingKey issuer nowV t nb hnb hlt
    cases hres : validateToken signingKey issuer nowV (.tok t) with
    | error err => rfl
    | ok c =>
      exfalso
      have hx : jwtNotYetValid t.claims.notBefore nowV = true := by
        simp [jwtNotYetValid, hnb]; omega
      simp only [validateToken] at hres
      split_ifs at hres
  · intro signingKey issuer nowV t ia hia hlt
    cases hres : validateToken signingKey issuer nowV (.tok t) with
    | error err => rfl
    | ok c =>
      exfalso
      have hx : (match t.claims.issuedAt with
                 | some x => decide (nowV < x)
                 | none => false) = true := by
        simp [hia]; omega
      simp only [validateToken] at hres
      split_ifs at hres

/-- Concrete instantiation of the C6 theorem: a token minted under
issuer "issuer-a" at clock 1000 with TTL 900 is rejected with
`invalidIssuer` by a validator for "issuer-b" at clock 1200, and the
time-based rejections fire on concrete tokens. -/
theorem validator_issuer_pinning_and_time_checks_witness :
    validateToken [7] "issuer-b" 1200
        (.tok { claims :=
                  { userID := "user-7", userEmail := "u@x", userDisplayName := "U",
                    userAvatarURL := "", userRoles := ["user"], issuer := "issuer-a",
                    subject := "user-7", issuedAt := some 1000,
                    notBefore := some (1000 - 30), expiresAt := some (1000 + 900) },
                alg := .hs256, macKey := [7] })
      = .error .invalidIssuer
    ∧ (validateToken [7] "issuer-a" 5000
        (.tok { claims :=
                  { userID := "user-7", userEmail := "u@x", userDisplayName := "U",
                    userAvatarURL := "", userRoles := ["user"], issuer := "issuer-a",
                    subject := "user-7", issuedAt := some 1000,
                    notBefore := some 970, expiresAt := some 1900 },
                alg := .hs256, macKey := [7] })).isOk = false
    ∧ (validateToken [7] "issuer-a" 900
        (.tok { claims :=
                  { userID := "user-7", userEmail := "u@x", userDisplayName := "U",
                    userAvatarURL := "", userRoles := ["user"], issuer := "issuer-a",
                    subject := "user-7", issuedAt := some 1000,
                    notBefore := some 970, expiresAt := some 1900 },
                alg := .hs256, macKey := [7] })).isOk = false
    ∧ (validateToken [7] "issuer-a" 985
        (.tok { claims :=
                  { userID := "user-7", userEmail := "u@x", userDisplayName := "U",
                    userAvatarURL := "", userRoles := ["user"], issuer := "issuer-a",
                    subject := "user-7", issuedAt := some 1000,
                    notBefore := some 970, expiresAt := some 1900 },
                alg := .hs256, macKey := [7] })).isOk = false := by
  refine ⟨?_, ?_, ?_, ?_⟩
  · exact validator_issuer_pinning_and_time_checks.1 1000 1200 900 "user-7" "u@x" "U" ""
      ["user"] [7] "issuer-a" "issuer-b" _ _ rfl (by decide) (by decide) (by decide)
  · exact validator_issuer_pinning_and_time_checks.2.1 [7] "issuer-a" 5000 _ 1900
      rfl (by decide)
  · exact validator_issuer_pinning_and_time_checks.2.2.1 [7] "issuer-a" 900 _ 970
      rfl (by decide)
  · exact validator_issuer_pinning_and_time_checks.2.2.2 [7] "issuer-a" 985 _ 1000
      rfl (by decide)

/-! ## Association-list lemmas shared by the store proofs -/

/-- A lookup misses exactly when no binding carries the key. -/
theorem lookupA_eq_none_iff {α : Type} (xs : List (String × α)) (k : String) :
    lookupA xs k = none ↔ ∀ p ∈ xs, ¬ (p.1 == k) = true := by
  simp [lookupA, List.find?_eq_none]

/-- Filtering preserves a lookup miss. -/
theorem lookupA_filter_none {α : Type} (xs : List (String × α)) (k : String)
    (q : String × α → Bool) (h : lookupA xs k = none) :
    lookupA (xs.filter q) k = none := by
  rw [lookupA_eq_none_iff] at h ⊢
  intro p hp
  exact h p (List.mem_filter.mp hp).1

/-- Deleting a key makes its lookup miss. -/
theorem lookupA_eraseA_self {α : Type} (xs : List (String × α)) (k : String) :
    lookupA (eraseA xs k) k = none := by
  rw [lookupA_eq_none_iff]
  intro p hp
  have := (List.mem_filter.mp hp).2
  simp only [bne_iff_ne, ne_eq] at this
  simp [this]

/-- Purging expired nonce entries preserves a lookup miss. -/
theorem lookupA_purgeExpired_none (xs : List (String × Int)) (k : String)
    (nowSec : Int) (h : lookupA xs k = none) :
    lookupA (purgeExpired xs nowSec) k = none :=
  lookupA_filter_none xs k _ h

/-- Lookup steps over a cons cell. -/
theorem lookupA_cons {α : Type} (x : String × α) (t : List (String × α)) (k : String) :
    lookupA (x :: t) k = if x.1 == k then some x.2 else lookupA t k := by
  by_cases h : (x.1 == k) = true <;> simp [lookupA, List.find?, h]

/-- Replacing a key that never occurs is the identity. -/
theorem insertA_map_id {α : Type} (t : List (String × α)) (k : String) (v : α)
    (h : t.any (fun p => p.1 == k) = false) :
    (t.map fun p => if p.1 == k then (k, v) else p) = t := by
  induction t with
  | nil => rfl
  | cons x t ih =>
    simp only [List.any_cons, Bool.or_eq_false_iff] at h
    rw [List.map_cons, if_neg (by simp [h.1]), ih h.2]

/-- Full characterisation of lookup after a Go-map write. -/
theorem lookupA_insertA {α : Type} (xs : List (String × α)) (k k' : String) (v : α) :
    lookupA (insertA xs k v) k' = if k == k' then some v else lookupA xs k' := by
  induction xs with
  | nil =>
    simp [insertA, lookupA_cons, lookupA]
  | cons x t ih =>
    cases hx : (x.1 == k) with
    | true =>
      have hxk : x.1 = k := by simpa using hx
      have hany : ((x :: t).any fun p => p.1 == k) = true := by simp [List.any_cons, hx]
      have hstep : insertA (x :: t) k v
          = (k, v) :: (t.map fun p => if p.1 == k then (k, v) else p) := by
        unfold insertA
        rw [if_pos hany, List.map_cons, if_pos hx]
      cases hta : (t.any fun p => p.1 == k) with
      | true =>
        have hmap : (t.map fun p => if p.1 == k then (k, v) else p) = insertA t k v := by
          simp [insertA, hta]
        rw [hstep, hmap, lookupA_cons, ih]
        cases hkk : (k == k') with
        | true => simp [hkk]
        | false =>
          have hxk' : (x.1 == k') = false := by rw [hxk]; exact hkk
          simp [hkk, lookupA_cons, hxk']
      | false =>
        have hmap := insertA_map_id t k v hta
        rw [hstep, hmap, lookupA_cons]
        cases hkk : (k == k') with
        | true => simp [hkk]
        | false =>
          have hxk' : (x.1 == k') = false := by rw [hxk]; exact hkk
          simp [hkk, lookupA_cons, hxk']
    | false =>
      cases hta : (t.any fun p => p.1 == k) with
      | true =>
        have hany : ((x :: t).any fun p => p.1 == k) = true := by
          simp [List.any_cons, hta]
        have hmap : (t.map fun p => if p.1 == k then (k, v) else p) = insertA t k v := by
          simp [insertA, hta]
        have hstep : insertA (x :: t) k v = x :: insertA t k v := by
          unfold insertA
          rw [if_pos hany, List.map_cons, if_neg (by simp [hx])]
          rw [show (t.map fun p => if p.1 == k then (k, v) else p) = insertA t k v from hmap]
          rw [if_pos hta]
        rw [hstep, lookupA_cons, lookupA_cons, ih]
        cases hkk : (k == k') with
        | true =>
          have hk : k = k' := by simpa using hkk
          have hxk' : (x.1 == k') = false := by rw [← hk]; exact hx
          simp [hkk, hxk']
        | false =>
          cases hxx : (x.1 == k') <;> simp [hkk, hxx]
      | false =>
        have hany : ((x :: t).any fun p => p.1 == k) = false := by
          simp [List.any_cons, hx, hta]
        have htail : insertA t k v = t ++ [(k, v)] := by
          simp [insertA, hta]
        have hstep : insertA (x :: t) k v = x :: (t ++ [(k, v)]) := by
          unfold insertA
          rw [if_neg (by simp [hany]), List.cons_append]
        rw [hstep, ← htail, lookupA_cons, lookupA_cons, ih]
        cases hkk : (k == k') with
        | true =>
          have hk : k = k' := by simpa using hkk
          have hxk' : (x.1 == k') = false := by rw [← hk]; exact hx
          simp [hkk, hxk']
        | false =>
          cases hxx : (x.1 == k') <;> simp [hkk, hxx]

/-- After inserting a binding, its key looks up to the new value. -/
theorem lookupA_insertA_self {α : Type} (xs : List (String × α)) (k : String) (v : α) :
    lookupA (insertA xs k v) k = some v := by
  rw [lookupA_insertA]
  simp

/-- Inserting one key leaves lookups of other keys unchanged. -/
theorem lookupA_insertA_ne {α : Type} (xs : List (String × α)) (k k' : String) (v : α)
    (hne : k' ≠ k) : lookupA (insertA xs k v) k' = lookupA xs k' := by
  rw [lookupA_insertA]
  have : (k == k') = false := by simpa using fun h => hne h.symm
  simp [this]

/-! ## Concrete stores used by the instantiation theorems -/

/-- An active record for token id "t1" with secret "s1". -/
def wRecActive : RefreshTokenRecord :=
  { tokenID := "t1", userID := "u1", tokenHash := hashOpaque "s1",
    expiresUnix := 100, revokedAtUnix := 0, previousTokenID := "", issuedAtUnix := 10 }

/-- An already-revoked record for token id "t2" with secret "s2". -/
def wRecRevoked : RefreshTokenRecord :=
  { tokenID := "t2", userID := "u1", tokenHash := hashOpaque "s2",
    expiresUnix := 100, revokedAtUnix := 7, previousTokenID := "", issuedAtUnix := 10 }

/-- A two-record database store. -/
def wDbStore : List RefreshTokenRecord := [wRecActive, wRecRevoked]

/-- The corresponding in-memory store. -/
def wMemStore : MemoryRefreshStore :=
  { byID := [("t1", wRecActive), ("t2", wRecRevoked)],
    byHash := [(hashOpaque "s1", "t1"), (hashOpaque "s2", "t2")] }

/-! ## C3 — nonce consumption: single use, sentinel errors, expiry -/

/-- C3: `Consume` returns `nonceNotFound` for an absent token; a present
token is removed unconditionally — so a second `Consume` of the same
token always returns `nonceNotFound` — and the first call returns
`nonceExpired` exactly when the clock has passed the recorded expiry,
otherwise nil. -/
theorem nonce_consume_single_use_and_expiry :
    (∀ (entries : List (String × Int)) (token : String) (nowSec : Int),
       lookupA entries token = none →
       (nonceConsume entries token nowSec).2 = some NonceError.nonceNotFound)
    ∧ (∀ (entries : List (String × Int)) (token : String) (nowSec expiry : Int),
        lookupA entries token = some expiry →
        lookupA (nonceConsume entries token nowSec).1 token = none
        ∧ (∀ now2 : Int,
            (nonceConsume (nonceConsume entries token nowSec).1 token now2).2
              = some NonceError.nonceNotFound)
        ∧ (nonceConsume entries token nowSec).2
            = (if expiry < nowSec then some NonceError.nonceExpired else none)) := by
  have habsent : ∀ (entries : List (String × Int)) (token : String) (nowSec : Int),
      lookupA entries token = none →
      (nonceConsume entries token nowSec).2 = some NonceError.nonceNotFound := by
    intro entries token nowSec h
    unfold nonceConsume
    rw [h]
  refine ⟨habsent, ?_⟩
  intro entries token nowSec expiry h
  have hgone : lookupA (nonceConsume entries token nowSec).1 token = none := by
    unfold nonceConsume
    rw [h]
    by_cases hc : expiry < nowSec <;>
      simp [hc, lookupA_purgeExpired_none _ _ _ (lookupA_eraseA_self entries token)]
  refine ⟨hgone, fun now2 => habsent _ token now2 hgone, ?_⟩
  unfold nonceConsume
  rw [h]
  by_cases hc : expiry < nowSec <;> simp [hc]

/-- Concrete instantiation of the C3 theorem: a store holding nonce
"n1" with expiry 100, consumed twice at clock 60, and an expired
consume of "n2" at clock 300. -/
theorem nonce_consume_single_use_and_expiry_witness :
    (nonceConsume [("n1", 100)] "n1" 60).2 = (if (100 : Int) < 60 then some NonceError.nonceExpired else none)
    ∧ lookupA (nonceConsume [("n1", 100)] "n1" 60).1 "n1" = none
    ∧ (nonceConsume (nonceConsume [("n1", 100)] "n1" 60).1 "n1" 61).2 = some NonceError.nonceNotFound
    ∧ (nonceConsume [("n2", 100)] "n2" 300).2 = (if (100 : Int) < 300 then some NonceError.nonceExpired else none)
    ∧ (nonceConsume [("n1", 100)] "missing" 60).2 = some NonceError.nonceNotFound := by
  have h1 := (nonce_consume_single_use_and_expiry.2 [("n1", 100)] "n1" 60 100 (by decide))
  have h2 := (nonce_consume_single_use_and_expiry.2 [("n2", 100)] "n2" 300 100 (by decide))
  exact ⟨h1.2.2, h1.1, h1.2.1 61,
         h2.2.2,
         nonce_consume_single_use_and_expiry.1 [("n1", 100)] "missing" 60 (by decide)⟩

/-! ## C1 — Validate error taxonomy shared by both refresh stores -/

/-- C1: on both the durable and the in-memory refresh store, `Validate`
returns `emptyOpaque` for blank input, `notFound` when no record's hash
matches, `revoked` when the matched record has `RevokedAtUnix ≠ 0`,
`expired` when the matched record's expiry is in the past, and
otherwise succeeds with the record's user id, token id, and expiry —
the same sentinel taxonomy on both backends. -/
theorem refresh_validate_error_taxonomy :
    (∀ (σ : List RefreshTokenRecord) (tokenOpq : String) (nowSec : Int),
       strTrim tokenOpq = "" →
       dbValidate σ tokenOpq nowSec = .error .emptyOpaque)
    ∧ (∀ (σ : List RefreshTokenRecord) (tokenOpq : String) (nowSec : Int),
        ¬ strTrim tokenOpq = "" →
        (∀ r ∈ σ, r.tokenHash ≠ hashOpaque tokenOpq) →
        dbValidate σ tokenOpq nowSec = .error .notFound)
    ∧ (∀ (σ : List RefreshTokenRecord) (tokenOpq : String) (nowSec : Int)
         (r : RefreshTokenRecord),
        ¬ strTrim tokenOpq = "" →
        σ.find? (fun x => x.tokenHash == hashOpaque tokenOpq) = some r →
        r.revokedAtUnix ≠ 0 →
        dbValidate σ tokenOpq nowSec = .error .revoked)
    ∧ (∀ (σ : List RefreshTokenRecord) (tokenOpq : String) (nowSec : Int)
         (r : RefreshTokenRecord),
        ¬ strTrim tokenOpq = "" →
        σ.find? (fun x => x.tokenHash == hashOpaque tokenOpq) = some r →
        r.revokedAtUnix = 0 → r.expiresUnix < nowSec →
        dbValidate σ tokenOpq nowSec = .error .expired)
    ∧ (∀ (σ : List RefreshTokenRecord) (tokenOpq : String) (nowSec : Int)
         (r : RefreshTokenRecord),
        ¬ strTrim tokenOpq = "" →
        σ.find? (fun x => x.tokenHash == hashOpaque tokenOpq) = some r →
        r.revokedAtUnix = 0 → ¬ r.expiresUnix < nowSec →
        dbValidate σ tokenOpq nowSec = .ok (r.userID, r.tokenID, r.expiresUnix))
    ∧ (∀ (st : MemoryRefreshStore) (tokenOpq : String) (nowSec : Int),
        strTrim tokenOpq = "" →
        memValidate st tokenOpq nowSec = .error .emptyOpaque)
    ∧ (∀ (st : MemoryRefreshStore) (tokenOpq : String) (nowSec : Int),
        ¬ strTrim tokenOpq = "" →
        lookupA st.byHash (hashOpaque tokenOpq) = none →
        memValidate st tokenOpq nowSec = .error .notFound)
    ∧ (∀ (st : MemoryRefreshStore) (tokenOpq : String) (nowSec : Int)
         (tokenID : String) (r : RefreshTokenRecord),
        ¬ strTrim tokenOpq = "" →
        lookupA st.byHash (hashOpaque tokenOpq) = some tokenID →
        lookupA st.byID tokenID = some r →
        r.revokedAtUnix ≠ 0 →
        memValidate st tokenOpq nowSec = .error .revoked)
    ∧ (∀ (st : MemoryRefreshStore) (tokenOpq : String) (nowSec : Int)
         (tokenID : String) (r : RefreshTokenRecord),
        ¬ strTrim tokenOpq = "" →
        lookupA st.byHash (hashOpaque tokenOpq) = some tokenID →
        lookupA st.byID tokenID = some r →
        r.revokedAtUnix = 0 → r.expiresUnix < nowSec →
        memValidate st tokenOpq nowSec = .error .expired)
    ∧ (∀ (st : MemoryRefreshStore) (tokenOpq : String) (nowSec : Int)
         (tokenID : String) (r : RefreshTokenRecord),
        ¬ strTrim tokenOpq = "" →
        lookupA st.byHash (hashOpaque tokenOpq) = some tokenID →
        lookupA st.byID tokenID = some r →
        r.revokedAtUnix = 0 → ¬ r.expiresUnix < nowSec →
        memValidate st tokenOpq nowSec = .ok (r.userID, r.tokenID, r.expiresUnix)) := by
  refine ⟨?_, ?_, ?_, ?_, ?_, ?_, ?_, ?_, ?_, ?_⟩
  · intro σ tokenOpq nowSec h
    unfold dbValidate
    rw [if_pos (by simp [h])]
  · intro σ tokenOpq nowSec h hne
    unfold dbValidate
    rw [if_neg (by simpa using h)]
    rw [List.find?_eq_none.mpr (fun x hx => by simpa using hne x hx)]
  · intro σ tokenOpq nowSec r h hfind hrev
    unfold dbValidate
    rw [if_neg (by simpa using h)]
    simp only [hfind, if_pos hrev]
  · intro σ tokenOpq nowSec r h hfind hrev hexp
    unfold dbValidate
    rw [if_neg (by simpa using h)]
    simp only [hfind]
    rw [if_neg (fun hc => hc hrev), if_pos hexp]
  · intro σ tokenOpq nowSec r h hfind hrev hexp
    unfold dbValidate
    rw [if_neg (by simpa using h)]
    simp only [hfind]
    rw [if_neg (fun hc => hc hrev), if_neg hexp]
  · intro st tokenOpq nowSec h
    unfold memValidate
    rw [if_pos (by simp [h])]
  · intro st tokenOpq nowSec h hmiss
    unfold memValidate
    rw [if_neg (by simpa using h), hmiss]
  · intro st tokenOpq nowSec tokenID r h hhash hid hrev
    unfold memValidate
    rw [if_neg (by simpa using h), hhash]
    simp only [hid, if_pos hrev]
  · intro st tokenOpq nowSec tokenID r h hhash hid hrev hexp
    unfold memValidate
    rw [if_neg (by simpa using h), hhash]
    simp only [hid]
    rw [if_neg (fun hc => hc hrev), if_pos hexp]
  · intro st tokenOpq nowSec tokenID r h hhash hid hrev hexp
    unfold memValidate
    rw [if_neg (by simpa using h), hhash]
    simp only [hid]
    rw [if_neg (fun hc => hc hrev), if_neg hexp]

/-- Concrete instantiation of the C1 theorem on a two-record store:
blank input, a miss, the revoked record "t2", the active record "t1"
seen expired at clock 200, and its success at clock 50 — for both
backends. -/
theorem refresh_validate_error_taxonomy_witness :
    dbValidate wDbStore "  " 50 = .error .emptyOpaque
    ∧ dbValidate wDbStore "s3" 50 = .error .notFound
    ∧ dbValidate wDbStore "s2" 50 = .error .revoked
    ∧ dbValidate wDbStore "s1" 200 = .error .expired
    ∧ dbValidate wDbStore "s1" 50 = .ok ("u1", "t1", 100)
    ∧ memValidate wMemStore "  " 50 = .error .emptyOpaque
    ∧ memValidate wMemStore "s3" 50 = .error .notFound
    ∧ memValidate wMemStore "s2" 50 = .error .revoked
    ∧ memValidate wMemStore "s1" 200 = .error .expired
    ∧ memValidate wMemStore "s1" 50 = .ok ("u1", "t1", 100) := by
  obtain ⟨d1, d2, d3, d4, d5, m1, m2, m3, m4, m5⟩ := refresh_validate_error_taxonomy
  refine ⟨d1 wDbStore "  " 50 (by decide),
          d2 wDbStore "s3" 50 (by decide) (by decide),
          d3 wDbStore "s2" 50 wRecRevoked (by decide) (by decide) (by decide),
          d4 wDbStore "s1" 200 wRecActive (by decide) (by decide) (by decide) (by decide),
          ?_,
          m1 wMemStore "  " 50 (by decide),
          m2 wMemStore "s3" 50 (by decide) (by decide),
          m3 wMemStore "s2" 50 "t2" wRecRevoked (by decide) (by decide) (by decide) (by decide),
          m4 wMemStore "s1" 200 "t1" wRecActive (by decide) (by decide) (by decide) (by decide) (by decide),
          ?_⟩
  · have h := d5 wDbStore "s1" 50 wRecActive (by decide) (by decide) (by decide) (by decide)
    simpa [wRecActive] using h
  · have h := m5 wMemStore "s1" 50 "t1" wRecActive (by decide) (by decide) (by decide)
      (by decide) (by decide)
    simpa [wRecActive] using h

/-! ## C2 — Revoke: success, distinct already-revoked error, not-found -/

/-- C2: on both refresh stores, `Revoke` of an unrevoked record sets its
`RevokedAtUnix` and returns nil; a second `Revoke` of the same id
returns the sentinel `alreadyRevoked` (neither nil nor a generic
error); and `Revoke` of an id with no record returns `notFound`. -/
theorem refresh_revoke_idempotency_taxonomy :
    (∀ (σ : List RefreshTokenRecord) (tokenID : String) (nowSec : Int),
       (∃ r ∈ σ, r.tokenID = tokenID ∧ r.revokedAtUnix = 0) →
       dbRevoke σ tokenID nowSec
         = (σ.map (fun r =>
             if r.tokenID == tokenID && r.revokedAtUnix == 0 then
               { r with revokedAtUnix := nowSec }
             else r), none))
    ∧ (∀ (σ : List RefreshTokenRecord) (tokenID : String) (nowSec : Int),
        (∃ r ∈ σ, r.tokenID = tokenID) →
        (∀ r ∈ σ, r.tokenID = tokenID → r.revokedAtUnix ≠ 0) →
        dbRevoke σ tokenID nowSec = (σ, some .alreadyRevoked))
    ∧ (∀ (σ : List RefreshTokenRecord) (tokenID : String) (nowSec : Int),
        (∀ r ∈ σ, r.tokenID ≠ tokenID) →
        dbRevoke σ tokenID nowSec = (σ, some .notFound))
    ∧ (∀ (σ : List RefreshTokenRecord) (tokenID : String) (now1 now2 : Int),
        (∃ r ∈ σ, r.tokenID = tokenID ∧ r.revokedAtUnix = 0) →
        now1 ≠ 0 →
        (dbRevoke σ tokenID now1).2 = none
        ∧ dbRevoke (dbRevoke σ tokenID now1).1 tokenID now2
            = ((dbRevoke σ tokenID now1).1, some .alreadyRevoked))
    ∧ (∀ (st : MemoryRefreshStore) (tokenID : String) (nowSec : Int)
         (r : RefreshTokenRecord),
        lookupA st.byID tokenID = some r → r.revokedAtUnix = 0 →
        memRevoke st tokenID nowSec
          = ({ byID := insertA st.byID tokenID { r with revokedAtUnix := nowSec },
               byHash := st.byHash }, none))
    ∧ (∀ (st : MemoryRefreshStore) (tokenID : String) (nowSec : Int)
         (r : RefreshTokenRecord),
        lookupA st.byID tokenID = some r → r.revokedAtUnix ≠ 0 →
        memRevoke st tokenID nowSec = (st, some .alreadyRevoked))
    ∧ (∀ (st : MemoryRefreshStore) (tokenID : String) (nowSec : Int),
        lookupA st.byID tokenID = none →
        memRevoke st tokenID nowSec = (st, some .notFound))
    ∧ (∀ (st : MemoryRefreshStore) (tokenID : String) (now1 now2 : Int)
         (r : RefreshTokenRecord),
        lookupA st.byID tokenID = some r → r.revokedAtUnix = 0 → now1 ≠ 0 →
        (memRevoke st tokenID now1).2 = none
        ∧ memRevoke (memRevoke st tokenID now1).1 tokenID now2
            = ((memRevoke st tokenID now1).1, some .alreadyRevoked)) := by
  have hdbA : ∀ (σ : List RefreshTokenRecord) (tokenID : String) (nowSec : Int),
      (∃ r ∈ σ, r.tokenID = tokenID ∧ r.revokedAtUnix = 0) →
      dbRevoke σ tokenID nowSec
        = (σ.map (fun r =>
            if r.tokenID == tokenID && r.revokedAtUnix == 0 then
              { r with revokedAtUnix := nowSec }
            else r), none) := by
    intro σ tokenID nowSec h
    obtain ⟨r, hrmem, hrid, hrrev⟩ := h
    unfold dbRevoke
    have hmem : r ∈ σ.filter (fun x => x.tokenID == tokenID && x.revokedAtUnix == 0) :=
      List.mem_filter.mpr ⟨hrmem, by simp [hrid, hrrev]⟩
    have hne : σ.filter (fun x => x.tokenID == tokenID && x.revokedAtUnix == 0) ≠ [] :=
      List.ne_nil_of_mem hmem
    rw [if_neg (by simpa [List.length_eq_zero] using hne)]
  have hdbB : ∀ (σ : List RefreshTokenRecord) (tokenID : String) (nowSec : Int),
      (∃ r ∈ σ, r.tokenID = tokenID) →
      (∀ r ∈ σ, r.tokenID = tokenID → r.revokedAtUnix ≠ 0) →
      dbRevoke σ tokenID nowSec = (σ, some .alreadyRevoked) := by
    intro σ tokenID nowSec hex hall
    unfold dbRevoke
    have hfil : σ.filter (fun x => x.tokenID == tokenID && x.revokedAtUnix == 0) = [] := by
      rw [List.filter_eq_nil_iff]
      intro a ha
      simp only [Bool.and_eq_true, beq_iff_eq, not_and]
      intro hid
      exact hall a ha hid
    rw [if_pos (by simp [hfil])]
    obtain ⟨r, hrmem, hrid⟩ := hex
    have hsome : (σ.find? (fun x => x.tokenID == tokenID)).isSome := by
      rw [List.find?_isSome]
      exact ⟨r, hrmem, by simp [hrid]⟩
    obtain ⟨r', hr'⟩ := Option.isSome_iff_exists.mp hsome
    have hr'mem : r' ∈ σ := List.mem_of_find?_eq_some hr'
    have hr'id : r'.tokenID = tokenID := by
      have := List.find?_some hr'
      simpa using this
    rw [hr']
    simp only [if_pos (hall r' hr'mem hr'id)]
  have hmemB : ∀ (st : MemoryRefreshStore) (tokenID : String) (nowSec : Int)
      (r : RefreshTokenRecord),
      lookupA st.byID tokenID = some r → r.revokedAtUnix ≠ 0 →
      memRevoke st tokenID nowSec = (st, some .alreadyRevoked) := by
    intro st tokenID nowSec r hid hrev
    unfold memRevoke
    rw [hid]
    simp only [if_pos hrev]
  refine ⟨hdbA, hdbB, ?_, ?_, ?_, hmemB, ?_, ?_⟩
  · intro σ tokenID nowSec hnone
    unfold dbRevoke
    have hfil : σ.filter (fun x => x.tokenID == tokenID && x.revokedAtUnix == 0) = [] := by
      rw [List.filter_eq_nil_iff]
      intro a ha
      simp [hnone a ha]
    rw [if_pos (by simp [hfil])]
    rw [List.find?_eq_none.mpr (fun x hx => by simpa using hnone x hx)]
  · intro σ tokenID now1 now2 hex hnz
    have h1 := hdbA σ tokenID now1 hex
    refine ⟨by rw [h1], ?_⟩
    rw [h1]
    apply hdbB
    · obtain ⟨r, hrmem, hrid, hrrev⟩ := hex
      refine ⟨{ r with revokedAtUnix := now1 }, ?_, by simpa using hrid⟩
      have : (fun x : RefreshTokenRecord =>
          if x.tokenID == tokenID && x.revokedAtUnix == 0 then
            { x with revokedAtUnix := now1 } else x) r
          = { r with revokedAtUnix := now1 } := by
        simp [hrid, hrrev]
      rw [← this]
      exact List.mem_map_of_mem _ hrmem
    · intro x hx hxid
      obtain ⟨y, hymem, hyeq⟩ := List.mem_map.mp hx
      by_cases hy : (y.tokenID == tokenID && y.revokedAtUnix == 0) = true
      · rw [if_pos hy] at hyeq
        rw [← hyeq]
        simpa using hnz
      · rw [if_neg hy] at hyeq
        subst hyeq
        simp only [Bool.and_eq_true, beq_iff_eq, not_and] at hy
        intro hzero
        exact (hy hxid) (by simpa using hzero)
  · intro st tokenID nowSec r hid hrev
    unfold memRevoke
    rw [hid]
    dsimp only
    rw [if_neg (fun hc => hc hrev)]
  · intro st tokenID nowSec hid
    unfold memRevoke
    rw [hid]
  · intro st tokenID now1 now2 r hid hrev hnz
    have h1 : memRevoke st tokenID now1
        = ({ byID := insertA st.byID tokenID { r with revokedAtUnix := now1 },
             byHash := st.byHash }, none) := by
      unfold memRevoke
      rw [hid]
      dsimp only
      rw [if_neg (fun hc => hc hrev)]
    refine ⟨by rw [h1], ?_⟩
    rw [h1]
    apply hmemB
    · exact lookupA_insertA_self st.byID tokenID { r with revokedAtUnix := now1 }
    · simpa using hnz

/-- Concrete instantiation of the C2 theorem: revoking the active token
"t1" at clock 1000 succeeds and then reports `alreadyRevoked`, and
revoking the unknown id "missing" reports `notFound`, on both
backends. -/
theorem refresh_revoke_idempotency_taxonomy_witness :
    (dbRevoke wDbStore "t1" 1000).2 = none
    ∧ dbRevoke (dbRevoke wDbStore "t1" 1000).1 "t1" 1001
        = ((dbRevoke wDbStore "t1" 1000).1, some .alreadyRevoked)
    ∧ dbRevoke wDbStore "missing" 1000 = (wDbStore, some .notFound)
    ∧ (memRevoke wMemStore "t1" 1000).2 = none
    ∧ memRevoke (memRevoke wMemStore "t1" 1000).1 "t1" 1001
        = ((memRevoke wMemStore "t1" 1000).1, some .alreadyRevoked)
    ∧ memRevoke wMemStore "missing" 1000 = (wMemStore, some .notFound) := by
  have hdb := refresh_revoke_idempotency_taxonomy.2.2.2.1 wDbStore "t1" 1000 1001
    ⟨wRecActive, by decide, by decide, by decide⟩ (by decide)
  have hmem := refresh_revoke_idempotency_taxonomy.2.2.2.2.2.2.2 wMemStore "t1" 1000 1001
    wRecActive (by decide) (by decide) (by decide)
  exact ⟨hdb.1, hdb.2,
         refresh_revoke_idempotency_taxonomy.2.2.1 wDbStore "missing" 1000 (by decide),
         hmem.1, hmem.2,
         refresh_revoke_idempotency_taxonomy.2.2.2.2.2.2.1 wMemStore "missing" 1000 (by decide)⟩

/-! ## C5 — stores persist only the hash of the opaque secret -/

/-- States of the database store reachable from an empty table, paired
with the opaque secrets passed through `Issue` so far. -/
inductive DbReach : List RefreshTokenRecord → List String → Prop
  | base : DbReach [] []
  | issueOk (σ : List RefreshTokenRecord) (secrets : List String)
      (uid : String) (exp : Int) (prev : String) (now : Int) (tid opq : String)
      (σ' : List RefreshTokenRecord) (out : String × String) :
      DbReach σ secrets →
      dbIssue σ uid exp prev now tid opq = (σ', .ok out) →
      DbReach σ' (opq :: secrets)
  | issueErr (σ : List RefreshTokenRecord) (secrets : List String)
      (uid : String) (exp : Int) (prev : String) (now : Int) (tid opq : String)
      (σ' : List RefreshTokenRecord) (e : RefreshStoreError) :
      DbReach σ secrets →
      dbIssue σ uid exp prev now tid opq = (σ', .error e) →
      DbReach σ' secrets
  | revoke (σ : List RefreshTokenRecord) (secrets : List String)
      (tid : String) (now : Int) (σ' : List RefreshTokenRecord)
      (res : Option RefreshStoreError) :
      DbReach σ secrets →
      dbRevoke σ tid now = (σ', res) →
      DbReach σ' secrets

/-- States of the memory store reachable from the empty store, paired
with the opaque secrets passed through `Issue` so far. -/
inductive MemReach : MemoryRefreshStore → List String → Prop
  | base : MemReach memEmpty []
  | issue (st : MemoryRefreshStore) (secrets : List String)
      (uid : String) (exp : Int) (prev : String) (now : Int) (tid opq : String)
      (st' : MemoryRefreshStore) (out : Except RefreshStoreError (String × String)) :
      MemReach st secrets →
      memIssue st uid exp prev now tid opq = (st', out) →
      MemReach st' (opq :: secrets)
  | revoke (st : MemoryRefreshStore) (secrets : List String)
      (tid : String) (now : Int) (st' : MemoryRefreshStore)
      (res : Option RefreshStoreError) :
      MemReach st secrets →
      memRevoke st tid now = (st', res) →
      MemReach st' secrets

/-- A successful database `Issue` appends exactly one record, whose hash
field is `hashOpaque` of the returned secret. -/
theorem dbIssue_ok_shape (σ : List RefreshTokenRecord) (uid : String) (exp : Int)
    (prev : String) (now : Int) (tid opq : String)
    (σ' : List RefreshTokenRecord) (out : String × String)
    (h : dbIssue σ uid exp prev now tid opq = (σ', .ok out)) :
    out = (tid, opq)
    ∧ σ' = σ ++ [{ tokenID := tid, userID := uid, tokenHash := hashOpaque opq,
                   expiresUnix := exp, revokedAtUnix := 0, previousTokenID := prev,
                   issuedAtUnix := now }] := by
  unfold dbIssue at h
  by_cases hdup : (σ.any fun r => r.tokenID == tid || r.tokenHash == hashOpaque opq) = true
  · rw [if_pos hdup] at h
    simp at h
  · rw [if_neg hdup] at h
    rw [Prod.mk.injEq] at h
    obtain ⟨hσ, hout⟩ := h
    refine ⟨?_, hσ.symm⟩
    simpa using hout.symm

/-- A failed database `Issue` leaves the table unchanged. -/
theorem dbIssue_err_shape (σ : List RefreshTokenRecord) (uid : String) (exp : Int)
    (prev : String) (now : Int) (tid opq : String)
    (σ' : List RefreshTokenRecord) (e : RefreshStoreError)
    (h : dbIssue σ uid exp prev now tid opq = (σ', .error e)) : σ' = σ := by
  unfold dbIssue at h
  by_cases hdup : (σ.any fun r => r.tokenID == tid || r.tokenHash == hashOpaque opq) = true
  · rw [if_pos hdup] at h
    exact (Prod.mk.injEq .. ▸ h).1.symm
  · rw [if_neg hdup] at h
    simp at h

/-- `dbRevoke` only rewrites `revokedAtUnix`; every record's hash field
is preserved positionally. -/
theorem dbRevoke_state_shape (σ : List RefreshTokenRecord) (tid : String) (now : Int) :
    (dbRevoke σ tid now).1
      = σ.map (fun r =>
          if r.tokenID == tid && r.revokedAtUnix == 0 then
            { r with revokedAtUnix := now }
          else r) := by
  have key : ∀ (l : List RefreshTokenRecord),
      (∀ r ∈ l, ¬ ((r.tokenID == tid && r.revokedAtUnix == 0) = true)) →
      (l.map fun r =>
        if r.tokenID == tid && r.revokedAtUnix == 0 then
          { r with revokedAtUnix := now }
        else r) = l := by
    intro l hl
    induction l with
    | nil => rfl
    | cons x t ih =>
      rw [List.map_cons, if_neg (hl x (by simp)), ih (fun r hr => hl r (by simp [hr]))]
  unfold dbRevoke
  by_cases hrows : ((σ.filter fun r => r.tokenID == tid && r.revokedAtUnix == 0).length == 0) = true
  · rw [if_pos hrows]
    have hfil : (σ.filter fun r => r.tokenID == tid && r.revokedAtUnix == 0) = [] :=
      List.length_eq_zero.mp (by simpa using hrows)
    have hall := List.filter_eq_nil_iff.mp hfil
    cases hfind : σ.find? (fun r => r.tokenID == tid) with
    | none =>
      dsimp only
      exact (key σ hall).symm
    | some r =>
      dsimp only
      by_cases hrev : r.revokedAtUnix ≠ 0
      · rw [if_pos hrev]
        exact (key σ hall).symm
      · rw [if_neg hrev]
        exact (key σ hall).symm
  · rw [if_neg hrows]

/-- Membership in a Go-map write: the new binding or an old one. -/
theorem mem_insertA {α : Type} (xs : List (String × α)) (k : String) (v : α)
    (p : String × α) (h : p ∈ insertA xs k v) : p = (k, v) ∨ p ∈ xs := by
  unfold insertA at h
  by_cases hany : (xs.any fun q => q.1 == k) = true
  · rw [if_pos hany] at h
    obtain ⟨y, hy, hyeq⟩ := List.mem_map.mp h
    by_cases hyk : (y.1 == k) = true
    · rw [if_pos hyk] at hyeq
      exact .inl hyeq.symm
    · rw [if_neg hyk] at hyeq
      exact .inr (hyeq ▸ hy)
  · rw [if_neg hany] at h
    rcases List.mem_append.mp h with h | h
    · exact .inr h
    · simp only [List.mem_singleton] at h
      exact .inl h

/-- A successful lookup returns the payload of some stored binding. -/
theorem lookupA_some_mem {α : Type} (xs : List (String × α)) (k : String) (v : α)
    (h : lookupA xs k = some v) : ∃ a, (a, v) ∈ xs := by
  unfold lookupA at h
  cases hfind : xs.find? (fun p => p.1 == k) with
  | none => rw [hfind] at h; simp at h
  | some p =>
    rw [hfind] at h
    have hp : p ∈ xs := List.mem_of_find?_eq_some hfind
    simp only [Option.map_some'] at h
    obtain rfl : p.2 = v := by simpa using h
    exact ⟨p.1, hp⟩

/-- C5: in every reachable state of either refresh store, each stored
record's hash field is `hashOpaque` of some secret passed through
`Issue`; a successful `Issue` persists exactly one record holding
`hashOpaque` of the returned secret and nothing else derived from it;
and `Validate` locates records only through the recomputed hash. -/
theorem refresh_stores_persist_only_hashes :
    (∀ (σ : List RefreshTokenRecord) (uid : String) (exp : Int) (prev : String)
       (now : Int) (tid opq : String) (σ' : List RefreshTokenRecord)
       (out : String × String),
       dbIssue σ uid exp prev now tid opq = (σ', .ok out) →
       out = (tid, opq)
       ∧ σ' = σ ++ [{ tokenID := tid, userID := uid, tokenHash := hashOpaque opq,
                      expiresUnix := exp, revokedAtUnix := 0, previousTokenID := prev,
                      issuedAtUnix := now }])
    ∧ (∀ (σ : List RefreshTokenRecord) (secrets : List String),
        DbReach σ secrets →
        ∀ r ∈ σ, ∃ s ∈ secrets, r.tokenHash = hashOpaque s)
    ∧ (∀ (σ : List RefreshTokenRecord) (opq : String) (now : Int) (u t : String) (e : Int),
        dbValidate σ opq now = .ok (u, t, e) →
        ∃ r ∈ σ, r.tokenHash = hashOpaque opq
          ∧ r.userID = u ∧ r.tokenID = t ∧ r.expiresUnix = e)
    ∧ (∀ (st : MemoryRefreshStore) (uid : String) (exp : Int) (prev : String)
         (now : Int) (tid opq : String),
        memIssue st uid exp prev now tid opq
          = ({ byID := insertA st.byID tid
                 { tokenID := tid, userID := uid, tokenHash := hashOpaque opq,
                   expiresUnix := exp, revokedAtUnix := 0, previousTokenID := prev,
                   issuedAtUnix := now },
               byHash := insertA st.byHash (hashOpaque opq) tid },
             .ok (tid, opq)))
    ∧ (∀ (st : MemoryRefreshStore) (secrets : List String),
        MemReach st secrets →
        ∀ p ∈ st.byID, ∃ s ∈ secrets, p.2.tokenHash = hashOpaque s)
    ∧ (∀ (st : MemoryRefreshStore) (opq : String) (now : Int) (u t : String) (e : Int),
        memValidate st opq now = .ok (u, t, e) →
        ∃ tid r, lookupA st.byHash (hashOpaque opq) = some tid
          ∧ lookupA st.byID tid = some r
          ∧ r.userID = u ∧ r.tokenID = t ∧ r.expiresUnix = e) := by
  refine ⟨?_, ?_, ?_, ?_, ?_, ?_⟩
  · intro σ uid exp prev now tid opq σ' out h
    exact dbIssue_ok_shape σ uid exp prev now tid opq σ' out h
  · intro σ secrets h
    induction h with
    | base => intro r hr; simp at hr
    | issueOk σ0 s0 uid exp prev now tid opq σ' out hprev hissue ih =>
      intro r hr
      obtain ⟨-, hshape⟩ := dbIssue_ok_shape σ0 uid exp prev now tid opq σ' out hissue
      subst hshape
      rcases List.mem_append.mp hr with hmem | hmem
      · obtain ⟨s, hs, hhash⟩ := ih r hmem
        exact ⟨s, List.mem_cons_of_mem _ hs, hhash⟩
      · simp only [List.mem_singleton] at hmem
        subst hmem
        exact ⟨opq, List.mem_cons_self _ _, rfl⟩
    | issueErr σ0 s0 uid exp prev now tid opq σ' e hprev hissue ih =>
      have hsame := dbIssue_err_shape σ0 uid exp prev now tid opq σ' e hissue
      subst hsame
      exact ih
    | revoke σ0 s0 tid now σ' res hprev hrevoke ih =>
      intro r hr
      have hst : σ' = σ0.map (fun x =>
          if x.tokenID == tid && x.revokedAtUnix == 0 then
            { x with revokedAtUnix := now }
          else x) := by
        have h2 := dbRevoke_state_shape σ0 tid now
        rw [hrevoke] at h2
        exact h2
      subst hst
      obtain ⟨y, hy, hyeq⟩ := List.mem_map.mp hr
      obtain ⟨s, hs, hhash⟩ := ih y hy
      refine ⟨s, hs, ?_⟩
      rw [← hyeq]
      by_cases hc : (y.tokenID == tid && y.revokedAtUnix == 0) = true
      · rw [if_pos hc]
        exact hhash
      · rw [if_neg hc]
        exact hhash
  · intro σ opq now u t e h
    unfold dbValidate at h
    by_cases htrim : (strTrim opq == "") = true
    · rw [if_pos htrim] at h
      simp at h
    · rw [if_neg htrim] at h
      cases hfind : σ.find? (fun r => r.tokenHash == hashOpaque opq) with
      | none => rw [hfind] at h; simp at h
      | some r =>
        rw [hfind] at h
        dsimp only at h
        by_cases hrev : r.revokedAtUnix ≠ 0
        · rw [if_pos hrev] at h; simp at h
        · rw [if_neg hrev] at h
          by_cases hexp : r.expiresUnix < now
          · rw [if_pos hexp] at h; simp at h
          · rw [if_neg hexp] at h
            have hmem := List.mem_of_find?_eq_some hfind
            have hpred := List.find?_some hfind
            simp only [Except.ok.injEq, Prod.mk.injEq] at h
            exact ⟨r, hmem, by simpa using hpred, h.1, h.2.1, h.2.2⟩
  · intro st uid exp prev now tid opq
    rfl
  · intro st secrets h
    induction h with
    | base => intro p hp; simp [memEmpty] at hp
    | issue st0 s0 uid exp prev now tid opq st' out hprev hissue ih =>
      intro p hp
      unfold memIssue at hissue
      rw [Prod.mk.injEq] at hissue
      obtain ⟨hst, hout⟩ := hissue
      rw [← hst] at hp
      rcases mem_insertA _ _ _ p hp with heq | hmem
      · subst heq
        exact ⟨opq, List.mem_cons_self _ _, rfl⟩
      · obtain ⟨s, hs, hhash⟩ := ih p hmem
        exact ⟨s, List.mem_cons_of_mem _ hs, hhash⟩
    | revoke st0 s0 tid now st' res hprev hrevoke ih =>
      intro p hp
      unfold memRevoke at hrevoke
      cases hid : lookupA st0.byID tid with
      | none =>
        rw [hid] at hrevoke
        dsimp only at hrevoke
        rw [Prod.mk.injEq] at hrevoke
        rw [← hrevoke.1] at hp
        exact ih p hp
      | some r =>
        rw [hid] at hrevoke
        dsimp only at hrevoke
        by_cases hrev : r.revokedAtUnix ≠ 0
        · rw [if_pos hrev] at hrevoke
          rw [Prod.mk.injEq] at hrevoke
          rw [← hrevoke.1] at hp
          exact ih p hp
        · rw [if_neg hrev] at hrevoke
          rw [Prod.mk.injEq] at hrevoke
          rw [← hrevoke.1] at hp
          rcases mem_insertA _ _ _ p hp with heq | hmem
          · subst heq
            obtain ⟨a, hamem⟩ := lookupA_some_mem st0.byID tid r hid
            obtain ⟨s, hs, hhash⟩ := ih (a, r) hamem
            exact ⟨s, hs, hhash⟩
          · exact ih p hmem
  · intro st opq now u t e h
    unfold memValidate at h
    by_cases htrim : (strTrim opq == "") = true
    · rw [if_pos htrim] at h
      simp at h
    · rw [if_neg htrim] at h
      cases hhash : lookupA st.byHash (hashOpaque opq) with
      | none => rw [hhash] at h; simp at h
      | some tid =>
        rw [hhash] at h
        dsimp only at h
        cases hid : lookupA st.byID tid with
        | none => rw [hid] at h; simp at h
        | some r =>
          rw [hid] at h
          dsimp only at h
          by_cases hrev : r.revokedAtUnix ≠ 0
          · rw [if_pos hrev] at h; simp at h
          · rw [if_neg hrev] at h
            by_cases hexp : r.expiresUnix < now
            · rw [if_pos hexp] at h; simp at h
            · rw [if_neg hexp] at h
              simp only [Except.ok.injEq, Prod.mk.injEq] at h
              exact ⟨tid, r, rfl, hid, h.1, h.2.1, h.2.2⟩

/-- The record created by the instantiation issue below. -/
def wIssuedRec : RefreshTokenRecord :=
  { tokenID := "tA", userID := "uA", tokenHash := hashOpaque "sA",
    expiresUnix := 500, revokedAtUnix := 0, previousTokenID := "", issuedAtUnix := 10 }

/-- The memory store after issuing the same record. -/
def wMemIssued : MemoryRefreshStore :=
  { byID := [("tA", wIssuedRec)], byHash := [(hashOpaque "sA", "tA")] }

/-- Concrete instantiation of the C5 theorem: one issue from the empty
store on each backend, the reachability invariant at the resulting
state, and a validate that succeeds only through the recomputed hash. -/
theorem refresh_stores_persist_only_hashes_witness :
    (("tA", "sA") = ("tA", "sA") ∧ [wIssuedRec] = [] ++ [wIssuedRec])
    ∧ (∃ s ∈ ["sA"], wIssuedRec.tokenHash = hashOpaque s)
    ∧ (∃ r ∈ [wIssuedRec], r.tokenHash = hashOpaque "sA"
        ∧ r.userID = "uA" ∧ r.tokenID = "tA" ∧ r.expiresUnix = 500)
    ∧ memIssue memEmpty "uA" 500 "" 10 "tA" "sA"
        = (⟨insertA memEmpty.byID "tA" wIssuedRec,
            insertA memEmpty.byHash (hashOpaque "sA") "tA"⟩,
           .ok ("tA", "sA"))
    ∧ (∃ s ∈ ["sA"], wIssuedRec.tokenHash = hashOpaque s ∧ True)
    ∧ (∃ tid r, lookupA wMemIssued.byHash (hashOpaque "sA") = some tid
        ∧ lookupA wMemIssued.byID tid = some r
        ∧ r.userID = "uA" ∧ r.tokenID = "tA" ∧ r.expiresUnix = 500) := by
  have hreachDb : DbReach [wIssuedRec] ["sA"] :=
    DbReach.issueOk [] [] "uA" 500 "" 10 "tA" "sA" [wIssuedRec] ("tA", "sA")
      DbReach.base (by rfl)
  have hreachMem : MemReach wMemIssued ["sA"] :=
    MemReach.issue memEmpty [] "uA" 500 "" 10 "tA" "sA" wMemIssued (.ok ("tA", "sA"))
      MemReach.base (by rfl)
  refine ⟨?_, ?_, ?_, ?_, ?_, ?_⟩
  · exact refresh_stores_persist_only_hashes.1 [] "uA" 500 "" 10 "tA" "sA"
      [wIssuedRec] ("tA", "sA") (by rfl)
  · exact refresh_stores_persist_only_hashes.2.1 [wIssuedRec] ["sA"] hreachDb
      wIssuedRec (by simp)
  · exact refresh_stores_persist_only_hashes.2.2.1 [wIssuedRec] "sA" 50 "uA" "tA" 500
      (by rfl)
  · exact refresh_stores_persist_only_hashes.2.2.2.1 memEmpty "uA" 500 "" 10 "tA" "sA"
  · obtain ⟨s, hs, hh⟩ := refresh_stores_persist_only_hashes.2.2.2.2.1 wMemIssued
      ["sA"] hreachMem ("tA", wIssuedRec) (by simp [wMemIssued])
    exact ⟨s, hs, hh, trivial⟩
  · exact refresh_stores_persist_only_hashes.2.2.2.2.2 wMemIssued "sA" 50 "uA" "tA" 500
      (by rfl)

/-! ## C9 — Revoke mutates only its own record; rotation scenario -/

/-- `memIssue` written as an equation, for reuse in state computations. -/
theorem memIssue_eq (st : MemoryRefreshStore) (uid : String) (exp : Int) (prev : String)
    (now : Int) (tid opq : String) :
    memIssue st uid exp prev now tid opq
      = (⟨insertA st.byID tid (issuedRecord tid uid opq exp prev now),
          insertA st.byHash (hashOpaque opq) tid⟩,
         .ok (tid, opq)) := rfl

/-- C9: `Revoke(id1)` rewrites only the record whose token id is `id1`,
leaving every other record — including a successor issued with
`previousTokenID = id1` — untouched, and deletes nothing; consequently
after `Issue`, `Issue` (chained), `Revoke(id1)`, the first secret
validates as revoked while the second still succeeds. -/
theorem refresh_revoke_frame_and_rotation :
    (∀ (σ : List RefreshTokenRecord) (tid : String) (now : Int),
       (dbRevoke σ tid now).1
         = σ.map (fun r =>
             if r.tokenID == tid && r.revokedAtUnix == 0 then
               { r with revokedAtUnix := now }
             else r))
    ∧ (∀ (σ : List RefreshTokenRecord) (tid : String) (now : Int) (r : RefreshTokenRecord),
        r ∈ σ → r.tokenID ≠ tid → r ∈ (dbRevoke σ tid now).1)
    ∧ (∀ (σ : List RefreshTokenRecord) (tid : String) (now : Int),
        ((dbRevoke σ tid now).1).length = σ.length)
    ∧ (∀ (σ : List RefreshTokenRecord) (uid : String) (exp : Int) (prev : String)
         (now : Int) (tid opq : String),
        σ.length ≤ ((dbIssue σ uid exp prev now tid opq).1).length)
    ∧ (∀ (st : MemoryRefreshStore) (tid : String) (now : Int) (k : String),
        k ≠ tid →
        lookupA ((memRevoke st tid now).1).byID k = lookupA st.byID k)
    ∧ (∀ (st : MemoryRefreshStore) (tid : String) (now : Int),
        ((memRevoke st tid now).1).byHash = st.byHash)
    ∧ (∀ (st : MemoryRefreshStore) (tid : String) (now : Int) (k : String),
        (lookupA st.byID k).isSome = true →
        (lookupA ((memRevoke st tid now).1).byID k).isSome = true)
    ∧ (∀ (u : String) (exp : Int) (id1 id2 s1 s2 : String) (n1 n2 n3 n4 : Int),
        id1 ≠ id2 → hashOpaque s1 ≠ hashOpaque s2 →
        ¬ strTrim s1 = "" → ¬ strTrim s2 = "" → n3 ≠ 0 → ¬ exp < n4 →
        (dbIssue [] u exp "" n1 id1 s1).2 = .ok (id1, s1)
        ∧ (dbIssue (dbIssue [] u exp "" n1 id1 s1).1 u exp id1 n2 id2 s2).2
            = .ok (id2, s2)
        ∧ (dbRevoke (dbIssue (dbIssue [] u exp "" n1 id1 s1).1 u exp id1 n2 id2 s2).1
             id1 n3).2 = none
        ∧ dbValidate
            (dbRevoke (dbIssue (dbIssue [] u exp "" n1 id1 s1).1 u exp id1 n2 id2 s2).1
              id1 n3).1 s1 n4 = .error .revoked
        ∧ dbValidate
            (dbRevoke (dbIssue (dbIssue [] u exp "" n1 id1 s1).1 u exp id1 n2 id2 s2).1
              id1 n3).1 s2 n4 = .ok (u, id2, exp))
    ∧ (∀ (u : String) (exp : Int) (id1 id2 s1 s2 : String) (n1 n2 n3 n4 : Int),
        id1 ≠ id2 → hashOpaque s1 ≠ hashOpaque s2 →
        ¬ strTrim s1 = "" → ¬ strTrim s2 = "" → n3 ≠ 0 → ¬ exp < n4 →
        (memRevoke (memIssue (memIssue memEmpty u exp "" n1 id1 s1).1 u exp id1 n2 id2 s2).1
           id1 n3).2 = none
        ∧ memValidate
            (memRevoke (memIssue (memIssue memEmpty u exp "" n1 id1 s1).1 u exp id1 n2 id2 s2).1
              id1 n3).1 s1 n4 = .error .revoked
        ∧ memValidate
            (memRevoke (memIssue (memIssue memEmpty u exp "" n1 id1 s1).1 u exp id1 n2 id2 s2).1
              id1 n3).1 s2 n4 = .ok (u, id2, exp)) := by
  refine ⟨dbRevoke_state_shape, ?_, ?_, ?_, ?_, ?_, ?_, ?_, ?_⟩
  · intro σ tid now r hmem hne
    rw [dbRevoke_state_shape]
    have : (if r.tokenID == tid && r.revokedAtUnix == 0 then
        { r with revokedAtUnix := now } else r) = r := by
      rw [if_neg]
      simp [hne]
    rw [← this]
    exact List.mem_map_of_mem _ hmem
  · intro σ tid now
    rw [dbRevoke_state_shape, List.length_map]
  · intro σ uid exp prev now tid opq
    unfold dbIssue
    by_cases hdup : (σ.any fun r => r.tokenID == tid || r.tokenHash == hashOpaque opq) = true
    · rw [if_pos hdup]
    · rw [if_neg hdup]
      simp
  · intro st tid now k hne
    unfold memRevoke
    cases hid : lookupA st.byID tid with
    | none => rfl
    | some r =>
      dsimp only
      by_cases hrev : r.revokedAtUnix ≠ 0
      · rw [if_pos hrev]
      · rw [if_neg hrev]
        exact lookupA_insertA_ne st.byID tid k _ hne
  · intro st tid now
    unfold memRevoke
    cases hid : lookupA st.byID tid with
    | none => rfl
    | some r =>
      dsimp only
      by_cases hrev : r.revokedAtUnix ≠ 0
      · rw [if_pos hrev]
      · rw [if_neg hrev]
  · intro st tid now k hsome
    unfold memRevoke
    cases hid : lookupA st.byID tid with
    | none => exact hsome
    | some r =>
      dsimp only
      by_cases hrev : r.revokedAtUnix ≠ 0
      · rw [if_pos hrev]
        exact hsome
      · rw [if_neg hrev]
        by_cases hk : k = tid
        · subst hk
          rw [lookupA_insertA_self]
          rfl
        · rw [lookupA_insertA_ne st.byID tid k _ hk]
          exact hsome
  · intro u exp id1 id2 s1 s2 n1 n2 n3 n4 hid hh htrim1 htrim2 hn3 hexp
    have h1 : dbIssue [] u exp "" n1 id1 s1
        = ([issuedRecord id1 u s1 exp "" n1], .ok (id1, s1)) := rfl
    have h2 : dbIssue (dbIssue [] u exp "" n1 id1 s1).1 u exp id1 n2 id2 s2
        = ([issuedRecord id1 u s1 exp "" n1, issuedRecord id2 u s2 exp id1 n2],
           .ok (id2, s2)) := by
      rw [h1]
      unfold dbIssue
      rw [if_neg (by simp [issuedRecord, hid, hh])]
      simp
    have h3state : (dbRevoke (dbIssue (dbIssue [] u exp "" n1 id1 s1).1 u exp id1 n2 id2 s2).1
        id1 n3).1
        = [{ issuedRecord id1 u s1 exp "" n1 with revokedAtUnix := n3 },
           issuedRecord id2 u s2 exp id1 n2] := by
      rw [h2, dbRevoke_state_shape]
      simp [issuedRecord, Ne.symm hid]
    have h3res : (dbRevoke (dbIssue (dbIssue [] u exp "" n1 id1 s1).1 u exp id1 n2 id2 s2).1
        id1 n3).2 = none := by
      rw [h2]
      unfold dbRevoke
      rw [if_neg (by simp [issuedRecord])]
    refine ⟨by rw [h1], by rw [h2], h3res, ?_, ?_⟩
    · rw [h3state]
      unfold dbValidate
      rw [if_neg (by simpa using htrim1)]
      have hfind : [{ issuedRecord id1 u s1 exp "" n1 with revokedAtUnix := n3 },
            issuedRecord id2 u s2 exp id1 n2].find?
              (fun r => r.tokenHash == hashOpaque s1)
          = some { issuedRecord id1 u s1 exp "" n1 with revokedAtUnix := n3 } := by
        simp [List.find?, issuedRecord]
      simp only [hfind]
      rw [if_pos (by simpa [issuedRecord] using hn3)]
    · rw [h3state]
      unfold dbValidate
      rw [if_neg (by simpa using htrim2)]
      have hfind : [{ issuedRecord id1 u s1 exp "" n1 with revokedAtUnix := n3 },
            issuedRecord id2 u s2 exp id1 n2].find?
              (fun r => r.tokenHash == hashOpaque s2)
          = some (issuedRecord id2 u s2 exp id1 n2) := by
        have hne : (hashOpaque s1 == hashOpaque s2) = false := by simpa using hh
        simp [List.find?, issuedRecord, hne]
      simp only [hfind]
      rw [if_neg (by simp [issuedRecord]), if_neg (by simpa [issuedRecord] using hexp)]
      simp [issuedRecord]
  · intro u exp id1 id2 s1 s2 n1 n2 n3 n4 hid hh htrim1 htrim2 hn3 hexp
    have hID1 : lookupA ((memIssue (memIssue memEmpty u exp "" n1 id1 s1).1 u exp id1 n2 id2 s2).1).byID id1
        = some (issuedRecord id1 u s1 exp "" n1) := by
      rw [memIssue_eq, memIssue_eq]
      dsimp only
      rw [lookupA_insertA_ne _ _ _ _ hid, lookupA_insertA_self]
    have hID2 : lookupA ((memIssue (memIssue memEmpty u exp "" n1 id1 s1).1 u exp id1 n2 id2 s2).1).byID id2
        = some (issuedRecord id2 u s2 exp id1 n2) := by
      rw [memIssue_eq]
      dsimp only
      rw [lookupA_insertA_self]
    have hrevoke : memRevoke ((memIssue (memIssue memEmpty u exp "" n1 id1 s1).1 u exp id1 n2 id2 s2).1)
        id1 n3
        = (⟨insertA ((memIssue (memIssue memEmpty u exp "" n1 id1 s1).1 u exp id1 n2 id2 s2).1).byID id1
              { issuedRecord id1 u s1 exp "" n1 with revokedAtUnix := n3 },
            ((memIssue (memIssue memEmpty u exp "" n1 id1 s1).1 u exp id1 n2 id2 s2).1).byHash⟩,
           none) := by
      unfold memRevoke
      rw [hID1]
      dsimp only
      rw [if_neg (by simp [issuedRecord])]
    have hHash1 : lookupA ((memIssue (memIssue memEmpty u exp "" n1 id1 s1).1 u exp id1 n2 id2 s2).1).byHash
        (hashOpaque s1) = some id1 := by
      rw [memIssue_eq, memIssue_eq]
      dsimp only
      rw [lookupA_insertA_ne _ _ _ _ hh, lookupA_insertA_self]
    have hHash2 : lookupA ((memIssue (memIssue memEmpty u exp "" n1 id1 s1).1 u exp id1 n2 id2 s2).1).byHash
        (hashOpaque s2) = some id2 := by
      rw [memIssue_eq]
      dsimp only
      rw [lookupA_insertA_self]
    refine ⟨by rw [hrevoke], ?_, ?_⟩
    · unfold memValidate
      rw [if_neg (by simpa using htrim1)]
      rw [hrevoke]
      dsimp only
      rw [hHash1]
      dsimp only
      rw [lookupA_insertA_self]
      dsimp only
      rw [if_pos (by simpa [issuedRecord] using hn3)]
    · unfold memValidate
      rw [if_neg (by simpa using htrim2)]
      rw [hrevoke]
      dsimp only
      rw [hHash2]
      dsimp only
      rw [lookupA_insertA_ne _ _ _ _ (Ne.symm hid), hID2]
      dsimp only
      rw [if_neg (by simp [issuedRecord]), if_neg (by simpa [issuedRecord] using hexp)]
      simp [issuedRecord]

/-- Concrete instantiation of the C9 theorem: the frame facts on the
two-record stores, and the full rotation scenario with user "u9" and
token ids "i1", "i2". -/
theorem refresh_revoke_frame_and_rotation_witness :
    (dbRevoke wDbStore "t1" 1000).1
      = wDbStore.map (fun r =>
          if r.tokenID == "t1" && r.revokedAtUnix == 0 then
            { r with revokedAtUnix := 1000 }
          else r)
    ∧ wRecRevoked ∈ (dbRevoke wDbStore "t1" 1000).1
    ∧ ((dbRevoke wDbStore "t1" 1000).1).length = wDbStore.length
    ∧ wDbStore.length ≤ ((dbIssue wDbStore "u1" 100 "" 10 "t9" "s9").1).length
    ∧ lookupA ((memRevoke wMemStore "t1" 1000).1).byID "t2" = lookupA wMemStore.byID "t2"
    ∧ ((memRevoke wMemStore "t1" 1000).1).byHash = wMemStore.byHash
    ∧ (lookupA ((memRevoke wMemStore "t1" 1000).1).byID "t2").isSome = true
    ∧ ((dbIssue [] "u9" 100 "" 10 "i1" "r1").2 = .ok ("i1", "r1")
       ∧ (dbIssue (dbIssue [] "u9" 100 "" 10 "i1" "r1").1 "u9" 100 "i1" 11 "i2" "r2").2
           = .ok ("i2", "r2")
       ∧ (dbRevoke (dbIssue (dbIssue [] "u9" 100 "" 10 "i1" "r1").1 "u9" 100 "i1" 11 "i2" "r2").1
           "i1" 12).2 = none
       ∧ dbValidate
           (dbRevoke (dbIssue (dbIssue [] "u9" 100 "" 10 "i1" "r1").1 "u9" 100 "i1" 11 "i2" "r2").1
             "i1" 12).1 "r1" 50 = .error .revoked
       ∧ dbValidate
           (dbRevoke (dbIssue (dbIssue [] "u9" 100 "" 10 "i1" "r1").1 "u9" 100 "i1" 11 "i2" "r2").1
             "i1" 12).1 "r2" 50 = .ok ("u9", "i2", 100))
    ∧ ((memRevoke (memIssue (memIssue memEmpty "u9" 100 "" 10 "i1" "r1").1 "u9" 100 "i1" 11 "i2" "r2").1
          "i1" 12).2 = none
       ∧ memValidate
           (memRevoke (memIssue (memIssue memEmpty "u9" 100 "" 10 "i1" "r1").1 "u9" 100 "i1" 11 "i2" "r2").1
             "i1" 12).1 "r1" 50 = .error .revoked
       ∧ memValidate
           (memRevoke (memIssue (memIssue memEmpty "u9" 100 "" 10 "i1" "r1").1 "u9" 100 "i1" 11 "i2" "r2").1
             "i1" 12).1 "r2" 50 = .ok ("u9", "i2", 100)) := by
  refine ⟨refresh_revoke_frame_and_rotation.1 wDbStore "t1" 1000,
          refresh_revoke_frame_and_rotation.2.1 wDbStore "t1" 1000 wRecRevoked
            (by decide) (by decide),
          refresh_revoke_frame_and_rotation.2.2.1 wDbStore "t1" 1000,
          refresh_revoke_frame_and_rotation.2.2.2.1 wDbStore "u1" 100 "" 10 "t9" "s9",
          refresh_revoke_frame_and_rotation.2.2.2.2.1 wMemStore "t1" 1000 "t2" (by decide),
          refresh_revoke_frame_and_rotation.2.2.2.2.2.1 wMemStore "t1" 1000,
          refresh_revoke_frame_and_rotation.2.2.2.2.2.2.1 wMemStore "t1" 1000 "t2" (by decide),
          refresh_revoke_frame_and_rotation.2.2.2.2.2.2.2.1 "u9" 100 "i1" "i2" "r1" "r2"
            10 11 12 50 (by decide) (by decide) (by decide) (by decide) (by decide) (by decide),
          refresh_revoke_frame_and_rotation.2.2.2.2.2.2.2.2 "u9" 100 "i1" "i2" "r1" "r2"
            10 11 12 50 (by decide) (by decide) (by decide) (by decide) (by decide) (by decide)⟩

/-! ## C7 — order of the identity-binding checks in /auth/google -/

/-- A refresh store stub that is never reached on the failing paths,
mirroring the stub store of the repository's handler tests. -/
def noopStoreOps : RefreshStoreOps Unit :=
  { validate := fun σ _ => (σ, .error .notFound),
    issue := fun σ _ _ _ => (σ, .error (.storage "unconfigured")),
    revoke := fun σ _ => (σ, none) }

/-- Handler configuration used by the concrete login evaluations. -/
def wLoginCfg : ServerConfigM :=
  { googleWebClientID := "client-id", appJWTSigningKey := [7], appJWTIssuer := "tauth",
    cookieDomain := "", sessionCookieName := "app_session",
    refreshCookieName := "app_refresh", sessionTTLSec := 900, refreshTTLSec := 3600,
    allowInsecureHTTP := true }

/-- A well-formed login request carrying nonce token "n1". -/
def wLoginReq : LoginRequest :=
  { bindOk := true, googleIDToken := "tok", nonceToken := "n1",
    httpInfo := { tlsPresent := true, xForwardedProto := "", forwarded := "",
                  host := "example.com:443" } }

/-- Externally verified claims with an accepted issuer, an unverified
email, and a nonce claim matching neither the raw nonce token nor its
hash. -/
def wPayloadUnverifiedMismatch : GooglePayload :=
  { iss := some "https://accounts.google.com", sub := some "subX",
    email := some "x@example.com", emailVerified := some false,
    name := some "X", picture := none, nonce := some "wrong" }

/-- C7 counterexample: for an accepted issuer with `email_verified =
false` and a mismatching nonce claim, the handler answers with the
nonce-mismatch outcome `invalid_nonce`, not `unverified_identity` —
the nonce-claim match is checked before the verified-identity rule,
contrary to the claimed order. -/
theorem google_binding_order_counterexample :
    (authGoogle noopStoreOps wLoginCfg wLoginReq true (.ok wPayloadUnverifiedMismatch)
        (fun _ _ _ _ => .ok ("uX", ["user"])) [("n1", 100)] () 50).errorCode
      = some "invalid_nonce"
    ∧ (authGoogle noopStoreOps wLoginCfg wLoginReq true (.ok wPayloadUnverifiedMismatch)
        (fun _ _ _ _ => .ok ("uX", ["user"])) [("n1", 100)] () 50).errorCode
      ≠ some "unverified_identity" := by
  constructor
  · decide
  · decide

/-- C7 amended: the binding rules run in the implemented order — issuer
allow-list, then nonce-claim match (raw or hashed), then the
verified-identity requirement — so an accepted-issuer payload with a
non-empty mismatching nonce claim fails with `invalid_nonce` regardless
of its identity fields, and one with a matching nonce claim but an
empty subject or email or unverified email fails with
`unverified_identity`. -/
theorem google_binding_order_as_implemented {σ : Type} (ops : RefreshStoreOps σ)
    (cfg : ServerConfigM) (req : LoginRequest) (payload : GooglePayload)
    (upsert : String → String → String → String → Except String (String × List String))
    (entries : List (String × Int)) (σ0 : σ) (nowSec : Int)
    (hbind : req.bindOk = true)
    (htok : ¬ strTrim req.googleIDToken = "")
    (hnt : ¬ strTrim req.nonceToken = "")
    (hcons : (nonceConsume entries req.nonceToken nowSec).2 = none)
    (hsec : cfg.allowInsecureHTTP = true)
    (hiss : payload.iss = some "https://accounts.google.com"
            ∨ payload.iss = some "accounts.google.com") :
    (payload.nonce.getD "" ≠ "" →
     payload.nonce.getD "" ≠ req.nonceToken →
     payload.nonce.getD "" ≠ hashOpaque req.nonceToken →
     (authGoogle ops cfg req true (.ok payload) upsert entries σ0 nowSec).errorCode
       = some "invalid_nonce")
    ∧ (payload.nonce.getD "" ≠ "" →
       (payload.nonce.getD "" = req.nonceToken
        ∨ payload.nonce.getD "" = hashOpaque req.nonceToken) →
       (payload.sub.getD "" = "" ∨ payload.email.getD "" = ""
        ∨ payload.emailVerified.getD false = false) →
       (authGoogle ops cfg req true (.ok payload) upsert entries σ0 nowSec).errorCode
         = some "unverified_identity") := by
  have h1 : (strTrim req.googleIDToken == "") = false := by simpa using htok
  have h2 : (strTrim req.nonceToken == "") = false := by simpa using hnt
  constructor
  · intro hc hne1 hne2
    have h3 : (payload.nonce.getD "" == "") = false := by simpa using hc
    have h4 : (payload.nonce.getD "" != req.nonceToken) = true := by simpa using hne1
    have h5 : (payload.nonce.getD "" != hashOpaque req.nonceToken) = true := by
      simpa using hne2
    rcases hiss with hi | hi <;>
      simp [authGoogle, hbind, h1, h2, hcons, hsec, hi, h3, h4, h5]
  · intro hc hmatch hbad
    have h3 : (payload.nonce.getD "" == "") = false := by simpa using hc
    have h6 : (payload.nonce.getD "" != req.nonceToken
        && payload.nonce.getD "" != hashOpaque req.nonceToken) = false := by
      rcases hmatch with hm | hm <;> simp [hm]
    have h7 : (payload.sub.getD "" == "" || payload.email.getD "" == ""
        || !payload.emailVerified.getD false) = true := by
      rcases hbad with hb | hb | hb <;> simp [hb]
    rcases hiss with hi | hi <;>
      simp [authGoogle, hbind, h1, h2, hcons, hsec, hi, h3, h6, h7]

/-- Concrete instantiation of the amended C7 theorem: the mismatch case
on `wPayloadUnverifiedMismatch`, and the matching-nonce unverified case
on the same payload with nonce claim "n1". -/
theorem google_binding_order_as_implemented_witness :
    (authGoogle noopStoreOps wLoginCfg wLoginReq true (.ok wPayloadUnverifiedMismatch)
        (fun _ _ _ _ => .ok ("uX", ["user"])) [("n1", 100)] () 50).errorCode
      = some "invalid_nonce"
    ∧ (authGoogle noopStoreOps wLoginCfg wLoginReq true
        (.ok { wPayloadUnverifiedMismatch with nonce := some "n1" })
        (fun _ _ _ _ => .ok ("uX", ["user"])) [("n1", 100)] () 50).errorCode
      = some "unverified_identity" := by
  constructor
  · exact (google_binding_order_as_implemented noopStoreOps wLoginCfg wLoginReq
      wPayloadUnverifiedMismatch (fun _ _ _ _ => .ok ("uX", ["user"])) [("n1", 100)] () 50
      (by decide) (by decide) (by decide) (by decide) (by decide) (.inl (by decide))).1
      (by decide) (by decide) (by decide)
  · exact (google_binding_order_as_implemented noopStoreOps wLoginCfg wLoginReq
      { wPayloadUnverifiedMismatch with nonce := some "n1" }
      (fun _ _ _ _ => .ok ("uX", ["user"])) [("n1", 100)] () 50
      (by decide) (by decide) (by decide) (by decide) (by decide) (.inl (by decide))).2
      (by decide) (.inl (by decide)) (.inr (.inr (by decide)))

/-! ## C10 — the localhost exception of the HTTPS requirement -/

/-- C10: with insecure HTTP disallowed, a request with no TLS and no
https forwarding headers is treated as secure exactly when its Host
header splits into host and port with host exactly "localhost"; a Host
of "localhost" without a port, or "127.0.0.1:8080", is rejected by the
login handler with the https_required 400 response. -/
theorem login_https_localhost_gate :
    (∀ (req : HttpRequestInfo),
       req.tlsPresent = false →
       equalFold req.xForwardedProto "https" = false →
       (req.forwarded = ""
        ∨ strContainsSub (lowerStr req.forwarded) "proto=https" = false) →
       (isHTTPS req = true
         ↔ ∃ h p, splitHostPort req.host = some (h, p) ∧ h = "localhost"))
    ∧ isHTTPS ⟨false, "", "", "localhost"⟩ = false
    ∧ isHTTPS ⟨false, "", "", "127.0.0.1:8080"⟩ = false
    ∧ isHTTPS ⟨false, "", "", "localhost:8080"⟩ = true
    ∧ (∀ (σ : Type) (ops : RefreshStoreOps σ) (cfg : ServerConfigM) (req : LoginRequest)
         (validatorInitOk : Bool) (payloadResult : Except String GooglePayload)
         (upsert : String → String → String → String → Except String (String × List String))
         (entries : List (String × Int)) (σ0 : σ) (nowSec : Int),
        cfg.allowInsecureHTTP = false →
        req.bindOk = true →
        ¬ strTrim req.googleIDToken = "" →
        ¬ strTrim req.nonceToken = "" →
        (nonceConsume entries req.nonceToken nowSec).2 = none →
        isHTTPS req.httpInfo = false →
        authGoogle ops cfg req validatorInitOk payloadResult upsert entries σ0 nowSec
          = ⟨400, some "https_required", [],
             (nonceConsume entries req.nonceToken nowSec).1, σ0⟩) := by
  refine ⟨?_, by decide, by decide, by decide, ?_⟩
  · intro req htls hxf hfwd
    unfold isHTTPS
    rw [if_neg (by simp [htls])]
    rw [if_neg (by simp [hxf])]
    have hfff : (req.forwarded != ""
        && strContainsSub (lowerStr req.forwarded) "proto=https") = false := by
      rcases hfwd with hf | hf <;> simp [hf]
    rw [if_neg (by simp [hfff])]
    cases hsp : splitHostPort req.host with
    | none => simp
    | some hp =>
      cases hp with
      | mk h p =>
        dsimp only
        constructor
        · intro hloc
          exact ⟨h, p, rfl, by simpa using hloc⟩
        · rintro ⟨h', p', heq, hloc⟩
          obtain ⟨rfl, rfl⟩ : h = h' ∧ p = p' := by
            simpa [Prod.mk.injEq] using heq
          simp [hloc]
  · intro σ ops cfg req validatorInitOk payloadResult upsert entries σ0 nowSec
      hsec hbind htok hnt hcons hhttp
    have h1 : (strTrim req.googleIDToken == "") = false := by simpa using htok
    have h2 : (strTrim req.nonceToken == "") = false := by simpa using hnt
    simp [authGoogle, hbind, h1, h2, hcons, hsec, hhttp]

/-- Concrete instantiation of the C10 theorem: the secure/insecure host
characterisation at "localhost:8080", and the https_required rejections
of the login handler at hosts "localhost" and "127.0.0.1:8080". -/
theorem login_https_localhost_gate_witness :
    (isHTTPS ⟨false, "", "", "localhost:8080"⟩ = true
      ↔ ∃ h p, splitHostPort "localhost:8080" = some (h, p) ∧ h = "localhost")
    ∧ authGoogle noopStoreOps { wLoginCfg with allowInsecureHTTP := false }
        { wLoginReq with httpInfo := ⟨false, "", "", "localhost"⟩ }
        true (.ok wPayloadUnverifiedMismatch)
        (fun _ _ _ _ => .ok ("uX", ["user"])) [("n1", 100)] () 50
        = ⟨400, some "https_required", [],
           (nonceConsume [("n1", 100)] "n1" 50).1, ()⟩
    ∧ authGoogle noopStoreOps { wLoginCfg with allowInsecureHTTP := false }
        { wLoginReq with httpInfo := ⟨false, "", "", "127.0.0.1:8080"⟩ }
        true (.ok wPayloadUnverifiedMismatch)
        (fun _ _ _ _ => .ok ("uX", ["user"])) [("n1", 100)] () 50
        = ⟨400, some "https_required", [],
           (nonceConsume [("n1", 100)] "n1" 50).1, ()⟩ := by
  refine ⟨login_https_localhost_gate.1 ⟨false, "", "", "localhost:8080"⟩ rfl
            (by decide) (.inl rfl), ?_, ?_⟩
  · exact login_https_localhost_gate.2.2.2.2 Unit noopStoreOps
      { wLoginCfg with allowInsecureHTTP := false }
      { wLoginReq with httpInfo := ⟨false, "", "", "localhost"⟩ }
      true (.ok wPayloadUnverifiedMismatch) (fun _ _ _ _ => .ok ("uX", ["user"]))
      [("n1", 100)] () 50 rfl rfl (by decide) (by decide) (by decide) (by decide)
  · exact login_https_localhost_gate.2.2.2.2 Unit noopStoreOps
      { wLoginCfg with allowInsecureHTTP := false }
      { wLoginReq with httpInfo := ⟨false, "", "", "127.0.0.1:8080"⟩ }
      true (.ok wPayloadUnverifiedMismatch) (fun _ _ _ _ => .ok ("uX", ["user"]))
      [("n1", 100)] () 50 rfl rfl (by decide) (by decide) (by decide) (by decide)

/-! ## C4 — refresh aborts with 500 when revoking the old token fails -/

/-- C4: in /auth/refresh, once the new refresh token has been issued, a
revocation failure other than `alreadyRevoked` makes the whole request
fail with 500: no session or refresh cookie is written, and the final
store state is exactly the post-issue, post-failed-revoke state, so the
newly issued record is retained but never handed to the client. -/
theorem refresh_revoke_failure_aborts_rotation {σ : Type} (ops : RefreshStoreOps σ)
    (cfg : ServerConfigM) (cookieValue : String)
    (profile : String → Except String (String × String × String × List String))
    (σ0 σ1 σ2 σ3 : σ) (nowSec : Int)
    (uid tid : String) (exp : Int) (em di av : String) (roles : List String)
    (tid2 opq2 : String) (e : RefreshStoreError)
    (hck : ¬ strTrim cookieValue = "")
    (hval : ops.validate σ0 cookieValue = (σ1, .ok (uid, tid, exp)))
    (hexp : ¬ exp < nowSec)
    (hprof : profile uid = .ok (em, di, av, roles))
    (huid : ¬ strTrim uid = "")
    (hiss : ops.issue σ1 uid (nowSec + cfg.refreshTTLSec) tid = (σ2, .ok (tid2, opq2)))
    (hopq : ¬ strTrim opq2 = "")
    (hrev : ops.revoke σ2 tid = (σ3, some e))
    (hne : e ≠ RefreshStoreError.alreadyRevoked) :
    authRefresh ops cfg (some cookieValue) profile σ0 nowSec = ⟨500, [], σ3⟩ := by
  have h0 : (strTrim cookieValue == "") = false := by simpa using hck
  have h1 : (strTrim opq2 == "") = false := by simpa using hopq
  cases hm : mintAppJWT nowSec uid em di av roles cfg.appJWTIssuer cfg.appJWTSigningKey
      cfg.sessionTTLSec with
  | error msg =>
    exfalso
    unfold mintAppJWT at hm
    rw [if_neg (by simpa using huid)] at hm
    simp at hm
  | ok pr =>
    simp [authRefresh, h0, hval, hexp, hprof, hm, hiss, h1, hrev, hne]

/-- A stub refresh store whose revoke always fails with a storage
error, mirroring the failing-revoke stub of the repository's handler
tests; issue appends the new record so that retention is observable. -/
def failingRevokeStub : RefreshStoreOps (List RefreshTokenRecord) :=
  { validate := fun σ _ => (σ, .ok ("user", "token", 9999)),
    issue := fun σ uid exp prev =>
      (σ ++ [issuedRecord "token-new" uid "opaque-new" exp prev 0],
       .ok ("token-new", "opaque-new")),
    revoke := fun σ _ => (σ, some (.storage "revoke_fail")) }

/-- Concrete instantiation of the C4 theorem on the failing-revoke stub:
the handler answers 500 with no cookies, and the newly issued record is
still present in the final store state. -/
theorem refresh_revoke_failure_aborts_rotation_witness :
    authRefresh failingRevokeStub wLoginCfg (some "refresh")
        (fun _ => .ok ("user@example.com", "User", "", ["user"])) [] 5
      = ⟨500, [],
         [issuedRecord "token-new" "user" "opaque-new" (5 + wLoginCfg.refreshTTLSec)
            "token" 0]⟩
    ∧ issuedRecord "token-new" "user" "opaque-new" (5 + wLoginCfg.refreshTTLSec) "token" 0
        ∈ [issuedRecord "token-new" "user" "opaque-new" (5 + wLoginCfg.refreshTTLSec)
            "token" 0] := by
  constructor
  · exact refresh_revoke_failure_aborts_rotation failingRevokeStub wLoginCfg "refresh"
      (fun _ => .ok ("user@example.com", "User", "", ["user"]))
      [] []
      [issuedRecord "token-new" "user" "opaque-new" (5 + wLoginCfg.refreshTTLSec) "token" 0]
      [issuedRecord "token-new" "user" "opaque-new" (5 + wLoginCfg.refreshTTLSec) "token" 0]
      5 "user" "token" 9999 "user@example.com" "User" "" ["user"]
      "token-new" "opaque-new" (.storage "revoke_fail")
      (by decide) rfl (by decide) rfl (by decide) rfl (by decide) rfl (by decide)
  · simp

end TAuth
